import Mathlib

/-!
Verification of the analysis-orchestration and post-processing layer of the
IsoVis structural-analysis backend (`backend/app/services/solver.py`).

The Python module is shallowly embedded here:

* JSON model dictionaries become Lean structures (`Model`, `Node`, `Element`,
  `Bearing`, ...).  Optional dictionary keys become `Option` fields; the
  `.get(key, default)` idiom becomes `Option.getD`.
* Python floats become `ℚ`.  The code only performs field arithmetic and
  comparisons on them except for `math.sqrt` and `math.pi`, which (like the
  external OpenSees engine itself) are supplied by an `Oracle` structure, so
  every embedded definition stays executable and no floating-point rounding
  has to be modelled.  No claim under verification depends on a square root
  or on π.
* Calls into the opaque external solver (`openseespy.opensees`, imported as
  `ops`) are modelled as an emitted event trace (`List Op`) plus an `Oracle`
  that decides the numeric outcome of each `ops.analyze` call (indexed by a
  running call counter) and the values returned by query calls.  Exceptions
  raised by Python code are modelled with `Except String`; the
  `try/finally` wipe discipline of the public entry points is embedded by the
  wrapper functions appending `Op.wipe` to the trace on every exit path.
* Python dicts keyed by `str(node_id)` are modelled as association lists keyed
  by the numeric id (`str` on ℕ is injective, so nothing is lost).
-/

/-- One friction-surface definition of a TFP bearing
(`friction_models` entries: keys `mu_slow`, `mu_fast`, `trans_rate`). -/
structure FrictionSurface where
  mu_slow : ℚ
  mu_fast : ℚ
  trans_rate : ℚ
  deriving Repr, DecidableEq

/-- A structural node (`NodeSchema`): id, coordinates, fixity flags. -/
structure Node where
  id : Nat
  coords : List ℚ
  fixity : List Nat
  deriving Repr, DecidableEq

/-- Material parameters map (only the keys the solver module reads). -/
structure MatParams where
  E : Option ℚ := none
  Fy : Option ℚ := none
  b : Option ℚ := none
  mu_slow : Option ℚ := none
  mu_fast : Option ℚ := none
  trans_rate : Option ℚ := none
  deriving Repr, DecidableEq

/-- A material definition (`MaterialSchema`). -/
structure Material where
  id : Nat
  type : String
  params : MatParams := {}
  deriving Repr, DecidableEq

/-- Section properties map (only the keys the solver module reads). -/
structure SecProps where
  E : Option ℚ := none
  A : Option ℚ := none
  Iz : Option ℚ := none
  Iy : Option ℚ := none
  J : Option ℚ := none
  G : Option ℚ := none
  d : Option ℚ := none
  deriving Repr, DecidableEq

/-- A section definition (`SectionSchema`); `material_id` is read with
`sec.get("material_id")`, hence `Option`. -/
structure Section where
  id : Nat
  type : String
  properties : SecProps := {}
  material_id : Option Nat := none
  deriving Repr, DecidableEq

/-- An element definition (`ElementSchema`).  `section_id` defaults to 0 and
`transform` to "Linear" in the schema, but the solver reads both with
`.get(..., default)`, so they are kept optional here. -/
structure Element where
  id : Nat
  type : String
  nodes : List Nat
  section_id : Option Nat := none
  transform : Option String := none
  deriving Repr, DecidableEq

/-- A TFP bearing definition (`TFPBearingSchema`); the schema guarantees
`nodes` has exactly two entries `[bottom, top]`, `radii` and
`disp_capacities` three each, and `friction_models` at least one. -/
structure Bearing where
  id : Nat
  nodes : List Nat
  friction_models : List FrictionSurface
  radii : List ℚ
  disp_capacities : List ℚ
  weight : ℚ
  vert_stiffness : Option ℚ := none
  uy : Option ℚ := none
  kvt : Option ℚ := none
  min_fv : Option ℚ := none
  tol : Option ℚ := none
  deriving Repr, DecidableEq

/-- A load definition (`LoadSchema`). -/
structure Load where
  type : String
  node_id : Option Nat := none
  values : List ℚ := []
  deriving Repr, DecidableEq

/-- A rigid-diaphragm grouping (as used by the repository's tests:
`perp_direction`, `master_node_id`, `constrained_node_ids`). -/
structure Diaphragm where
  perp_direction : Nat
  master_node_id : Nat
  constrained_node_ids : List Nat
  deriving Repr, DecidableEq

/-- The `model_info` metadata dictionary; every key is optional
(`info.get("ndm", 2)` etc.). -/
structure ModelInfo where
  units : Option String := none
  ndm : Option Nat := none
  ndf : Option Nat := none
  z_up : Option Bool := none
  deriving Repr, DecidableEq

/-- A full declarative model (`StructuralModelSchema` as consumed by
`solver.py`).  The `diaphragms` key may be absent, hence `Option`. -/
structure Model where
  model_info : ModelInfo := {}
  nodes : List Node := []
  materials : List Material := []
  sections : List Section := []
  elements : List Element := []
  bearings : List Bearing := []
  loads : List Load := []
  diaphragms : Option (List Diaphragm) := none
  deriving Repr, DecidableEq

/-- `model_data.get("model_info", {}).get("ndm", 2)`. -/
def Model.ndm (m : Model) : Nat := m.model_info.ndm.getD 2

/-- `model_data.get("model_info", {}).get("ndf", 3)`. -/
def Model.ndf (m : Model) : Nat := m.model_info.ndf.getD 3

/-- `_GRAVITY_CONSTANTS` table. -/
def gravityConstants : List (String × ℚ) :=
  [("kip-in", 386.4), ("kip-ft", 32.174), ("kN-m", 9.81), ("kN-mm", 9810.0),
   ("N-m", 9.81), ("N-mm", 9810.0), ("lb-in", 386.4), ("lb-ft", 32.174)]

/-- `_get_gravity`: gravity constant for the model's unit system, default
9.81 for unknown unit strings. -/
def _get_gravity (m : Model) : ℚ :=
  (gravityConstants.lookup (m.model_info.units.getD "kN-m")).getD 9.81

/-- `_is_z_up`: the model uses the Z-up convention when the `z_up` flag is
set, or when it is 3D and has bearings. -/
def _is_z_up (m : Model) : Bool :=
  if m.model_info.z_up.getD false then true
  else m.model_info.ndm.getD 2 == 3 && !m.bearings.isEmpty

/-- `_vert_coord_idx`: coordinate index of the vertical direction. -/
def _vert_coord_idx (m : Model) : Nat :=
  if _is_z_up m then 2 else 1

/-- One entry of the discretization map: the ordered node chain
(`[nodeI, internals..., nodeJ]`) and the sub-element ids replacing one
original element. -/
structure DiscEntry where
  node_chain : List Nat
  sub_element_ids : List Nat
  deriving Repr, DecidableEq

/-- Loop state of `_discretize_elements`: the evolving `node_lookup` dict
(modelled prepend-on-write, first-match lookup, i.e. last write wins), the
next fresh node/element ids, and the output accumulators. -/
structure DiscState where
  lookup : List (Nat × List ℚ)
  nextNode : Nat
  nextElem : Nat
  newNodes : List Node
  newElems : List Element
  dmap : List (Nat × DiscEntry)
  icoords : List (Nat × List ℚ)
  deriving Repr, DecidableEq

/-- Linear interpolation of internal-node coordinates
(`coords_i[d] + frac * (coords_j[d] - coords_i[d])` for `d < len(coords_i)`;
the schema guarantees both coordinate lists have the same length). -/
def interpCoords (ci cj : List ℚ) (k ratio : Nat) : List ℚ :=
  (List.range ci.length).map
    (fun d => ci.getD d 0 + ((k : ℚ) / (ratio : ℚ)) * (cj.getD d 0 - ci.getD d 0))

/-- Body of the `for elem in data.get("elements", [])` loop of
`_discretize_elements`: non-beam-column elements are passed through; a
beam-column element produces `ratio - 1` interpolated internal nodes (with
fixity `[0] * ndf`) and `ratio` sub-elements sharing its section and
transform. -/
def discStep (ndf ratio : Nat) (st : DiscState) (e : Element) : DiscState :=
  if e.type ≠ "elasticBeamColumn" then
    { st with newElems := st.newElems ++ [e] }
  else
    let ni := e.nodes.getD 0 0
    let nj := e.nodes.getD 1 0
    let ci := (st.lookup.lookup ni).getD [0, 0, 0]
    let cj := (st.lookup.lookup nj).getD [0, 0, 0]
    let internals := (List.range (ratio - 1)).map (fun i =>
      { id := st.nextNode + i
        coords := interpCoords ci cj (i + 1) ratio
        fixity := List.replicate ndf 0 : Node })
    let chain := [ni] ++ List.range' st.nextNode (ratio - 1) ++ [nj]
    let subIds := List.range' st.nextElem ratio
    let subs := (List.range ratio).map (fun k =>
      { id := st.nextElem + k
        type := "elasticBeamColumn"
        nodes := [chain.getD k 0, chain.getD (k + 1) 0]
        section_id := some (e.section_id.getD 0)
        transform := some (e.transform.getD "Linear") : Element })
    { lookup := internals.foldl (fun dict n => (n.id, n.coords) :: dict) st.lookup
      nextNode := st.nextNode + (ratio - 1)
      nextElem := st.nextElem + ratio
      newNodes := st.newNodes ++ internals
      newElems := st.newElems ++ subs
      dmap := st.dmap ++ [(e.id, { node_chain := chain, sub_element_ids := subIds })]
      icoords := st.icoords ++ internals.map (fun n => (n.id, n.coords)) }

/-- `_discretize_elements`: split each elasticBeamColumn element into `ratio`
sub-elements; for `ratio < 2` the model is returned unchanged.  New node ids
start above the maximum existing node id, new element ids above the maximum
of element ids and bearing tags (`10000 + bearing id`).  Returns the modified
model (the Python function deep-copies its argument, so the embedding's
purity models the non-mutation contract exactly), the discretization map and
the internal-node coordinate table. -/
def _discretize_elements (m : Model) (ratio : Nat := 5) :
    Model × List (Nat × DiscEntry) × List (Nat × List ℚ) :=
  if ratio < 2 then (m, [], [])
  else
    let ndf := m.ndf
    let lookup0 := m.nodes.foldl (fun dict n => (n.id, n.coords) :: dict) []
    let nextNode0 := (m.nodes.map Node.id).foldl max 0 + 1
    let elemIds := m.elements.map Element.id
    let bearingTags := m.bearings.map (fun b => 10000 + b.id)
    let maxElemId := (elemIds ++ bearingTags).foldl max 0
    let st0 : DiscState :=
      { lookup := lookup0, nextNode := nextNode0, nextElem := maxElemId + 1
        newNodes := [], newElems := [], dmap := [], icoords := [] }
    let st := m.elements.foldl (discStep ndf ratio) st0
    ({ m with nodes := m.nodes ++ st.newNodes, elements := st.newElems },
     st.dmap, st.icoords)

/-- `_find_section`: first section whose id matches, else `None`. -/
def _find_section (m : Model) (section_id : Nat) : Option Section :=
  m.sections.find? (fun s => s.id == section_id)

/-- `_get_material_E`: Young's modulus of the material with the given id,
1.0 when the id is `None`, unknown, or the material has no `E` parameter. -/
def _get_material_E (m : Model) (mat_id : Option Nat) : ℚ :=
  match mat_id with
  | none => 1
  | some i =>
    match m.materials.find? (fun mat => mat.id == i) with
    | some mat => mat.params.E.getD 1
    | none => 1

/-- `_compute_deformed_shape`: per node, original coordinates plus
`scale_factor` times the node's displacement, componentwise over
`range(min(ndm, len(coords), len(disps)))`; a node missing from the
displacement map gets `[0.0] * ndm`. -/
def _compute_deformed_shape (m : Model) (node_displacements : List (Nat × List ℚ))
    (ndm : Nat) (scale_factor : ℚ := 1) : List (Nat × List ℚ) :=
  m.nodes.map (fun n =>
    (n.id,
     (List.range (min ndm (min n.coords.length
         ((node_displacements.lookup n.id).getD (List.replicate ndm 0)).length))).map
       (fun i => n.coords.getD i 0 + scale_factor *
         ((node_displacements.lookup n.id).getD (List.replicate ndm 0)).getD i 0)))

/-- One plastic-hinge record produced by `_compute_hinge_states`. -/
structure HingeState where
  element_id : Nat
  endLabel : String
  rotation : ℚ
  moment : ℚ
  performance_level : Option String
  demand_capacity_ratio : ℚ
  deriving Repr, DecidableEq

/-- Approximate yield moment of an element's section in
`_compute_hinge_states`: `My = (E / 200) * S` with `S = Iz / (d / 2)`
(falling back to `S = Iz` for non-positive depth), or 1.0 when the element
has no section. -/
def yieldMomentOf (m : Model) (e : Element) : ℚ :=
  match _find_section m (e.section_id.getD 0) with
  | some sec =>
    let Iz := sec.properties.Iz.getD 1
    let E := sec.properties.E.getD (_get_material_E m sec.material_id)
    let depth := sec.properties.d.getD 14
    let S := if depth > 0 then Iz / (depth / 2) else Iz
    (E / 200) * S
  | none => 1

/-- The per-end classification of `_compute_hinge_states`: ends with moment
below 1e-10 are skipped; otherwise the demand/capacity ratio is
`moment / My` (0.0 for non-positive `My`) and the branch ladder
`< 1.0 → elastic (level None), < 2.0 → "IO", < 3.0 → "LS", else "CP"`
fires, with plastic rotation `(ratio - 1.0) * 0.01` on the non-elastic
branches. -/
def hingeRecordsFor (e : Element) (endLabel : String) (moment My : ℚ) :
    List HingeState :=
  if moment < 1e-10 then []
  else
    let dc_ratio := if My > 0 then moment / My else 0
    if dc_ratio < 1 then
      [{ element_id := e.id, endLabel := endLabel, rotation := 0,
         moment := moment, performance_level := none,
         demand_capacity_ratio := dc_ratio }]
    else if dc_ratio < 2 then
      [{ element_id := e.id, endLabel := endLabel, rotation := (dc_ratio - 1) * 0.01,
         moment := moment, performance_level := some "IO",
         demand_capacity_ratio := dc_ratio }]
    else if dc_ratio < 3 then
      [{ element_id := e.id, endLabel := endLabel, rotation := (dc_ratio - 1) * 0.01,
         moment := moment, performance_level := some "LS",
         demand_capacity_ratio := dc_ratio }]
    else
      [{ element_id := e.id, endLabel := endLabel, rotation := (dc_ratio - 1) * 0.01,
         moment := moment, performance_level := some "CP",
         demand_capacity_ratio := dc_ratio }]

/-- `_compute_hinge_states`: per element, end moments are read from the
local force list (`[N_i, V_i, M_i, N_j, V_j, M_j]` for length ≥ 6, only the
I-end for length in `[3, 6)`, skipped entirely for shorter or missing force
lists), the yield moment is estimated from the section, and both ends are
classified. -/
def _compute_hinge_states (m : Model) (element_forces : List (Nat × List ℚ)) :
    List HingeState :=
  m.elements.flatMap (fun e =>
    match element_forces.lookup e.id with
    | none => []
    | some forces =>
      if forces.isEmpty then []
      else if 6 ≤ forces.length then
        let moment_i := |forces.getD 2 0|
        let moment_j := |forces.getD 5 0|
        let My := yieldMomentOf m e
        hingeRecordsFor e "I" moment_i My ++ hingeRecordsFor e "J" moment_j My
      else if 3 ≤ forces.length then
        let moment_i := |forces.getD 2 0|
        let My := yieldMomentOf m e
        hingeRecordsFor e "I" moment_i My ++ hingeRecordsFor e "J" 0 My
      else [])

/-- `generate_fixed_base_variant`: deep-copy the model, preserve the Z-up
flag, remove all bearings, and set full fixity (`[1] * ndf`) on every node
that was the second (top) node of some bearing.  (The function also collects
the bearing bottom nodes but never removes them.)  The embedding's purity
models the documented non-mutation of the input. -/
def generate_fixed_base_variant (m : Model) : Model :=
  let info := if _is_z_up m then { m.model_info with z_up := some true }
              else m.model_info
  let bearing_top_nodes := m.bearings.map (fun b => b.nodes.getD 1 0)
  let ndf := m.ndf
  { m with
    model_info := info
    bearings := []
    nodes := m.nodes.map (fun n =>
      if n.id ∈ bearing_top_nodes then { n with fixity := List.replicate ndf 1 }
      else n) }

/-- `apply_lambda_factor`: deep-copy the model and multiply every bearing
friction surface's `mu_slow` and `mu_fast` by `factor`; nothing else is
touched. -/
def apply_lambda_factor (m : Model) (factor : ℚ) : Model :=
  { m with
    bearings := m.bearings.map (fun b =>
      { b with friction_models := b.friction_models.map (fun fm =>
          { fm with mu_slow := fm.mu_slow * factor
                    mu_fast := fm.mu_fast * factor }) }) }

/-- The value appended by one iteration of `build_model`'s fixity padding
loop: 1 when the current list is non-empty and all ones, else 0. -/
def padFixityValue (fixity : List Nat) : Nat :=
  if fixity ≠ [] ∧ fixity.all (fun f => f == 1) then 1 else 0

/-- The `while len(fixity) < ndf: fixity.append(...)` padding loop of
`build_model`'s node registration. -/
def padFixity (fixity : List Nat) (ndf : Nat) : List Nat :=
  if fixity.length < ndf then padFixity (fixity ++ [padFixityValue fixity]) ndf
  else fixity
termination_by ndf - fixity.length
decreasing_by simp; omega

/-- One call into the external OpenSees engine, as recorded in the emitted
trace of an orchestrator run.  Payloads keep the numeric arguments that the
solver module computes; auxiliary tag references are carried in `tags`. -/
inductive Op where
  | wipe
  | wipeAnalysisOp
  | modelCmd (ndm ndf : Nat)
  | nodeCmd (id : Nat) (coords : List ℚ)
  | fixCmd (id : Nat) (fixity : List Nat)
  | uniaxialMaterialCmd (name : String) (tag : Nat) (params : List ℚ)
  | frictionModelCmd (name : String) (tag : Nat) (params : List ℚ)
  | sectionCmd (name : String) (tag : Nat) (params : List ℚ)
  | geomTransfCmd (name : String) (tag : Nat) (vecxz : List ℚ)
  | elementCmd (name : String) (tag : Nat) (nodes : List Nat) (params : List ℚ)
      (tags : List Nat)
  | timeSeriesCmd (name : String) (tag : Nat) (params : List ℚ)
  | patternCmd (name : String) (tag : Nat) (args : List Int)
  | loadCmd (node : Nat) (values : List ℚ)
  | constraintsCmd (s : String)
  | numbererCmd (s : String)
  | systemCmd (s : String)
  | testCmd (s : String) (tolParams : List ℚ)
  | algorithmCmd (s : String)
  | integratorCmd (s : String) (params : List ℚ)
  | analysisCmd (s : String)
  | analyzeCmd
  | loadConstCmd
  | reactionsCmd
  | massCmd (node : Nat) (values : List ℚ)
  | rayleighCmd (a0 : ℚ)
  | eigenCmd (n : Nat)
  deriving Repr, DecidableEq

/-- The opaque external engine (plus `math.sqrt` and `math.pi`).  `ops.analyze`
outcomes are indexed by a running analyze-call counter; `stopIter` marks the
analyze calls that raise `StopIteration` (only `run_time_history`'s
`_analyze_step` guards against it).  Query functions also receive the current
counter so their values may depend on the analysis state; `none` from an
`eleResponse` query models the query raising (every call site guards it with
`try/except`).  `eigenRaises` models `ops.eigen` raising, and
`tfpFirstSigRaises` selects the fallback `TripleFrictionPendulum` element
signature in `_define_bearings`. -/
structure Oracle where
  analyzeCode : Nat → Int
  stopIter : Nat → Bool
  eigenRaises : Bool
  eigenVals : Nat → List ℚ
  sqrt : ℚ → ℚ
  pi : ℚ
  nodeDisp : Nat → Nat → Nat → ℚ
  nodeReaction : Nat → Nat → Nat → ℚ
  nodeEigenvector : Nat → Nat → Nat → ℚ
  eleForce : Nat → Nat → Option (List ℚ)
  eleBasicDisp : Nat → Nat → Option (List ℚ)
  eleBasicForce : Nat → Nat → Option (List ℚ)
  tfpFirstSigRaises : Bool

/-- Node-registration part of `build_model`: pad coordinates with zeros to
`ndm` (then truncate), pad fixity with the while-loop of lines 331-332, and
issue `ops.fix` only when the padded fixity is non-empty and contains a
restrained DOF. -/
def nodeOps (ndm ndf : Nat) (n : Node) : List Op :=
  [Op.nodeCmd n.id ((n.coords ++ List.replicate (ndm - n.coords.length) 0).take ndm)] ++
    (if padFixity n.fixity ndf ≠ [] ∧ (padFixity n.fixity ndf).any (fun f => f == 1) then
      [Op.fixCmd n.id ((padFixity n.fixity ndf).take ndf)]
     else [])

/-- `_define_materials`: Elastic and Steel02 become `uniaxialMaterial` calls,
VelDependent becomes a `frictionModel` call, anything else is skipped with a
warning. -/
def _define_materials (materials : List Material) : List Op :=
  materials.flatMap (fun mat =>
    if mat.type = "Elastic" then
      [Op.uniaxialMaterialCmd "Elastic" mat.id [mat.params.E.getD 1]]
    else if mat.type = "Steel02" then
      [Op.uniaxialMaterialCmd "Steel02" mat.id
        [mat.params.Fy.getD 250, mat.params.E.getD 200000, mat.params.b.getD 0.01]]
    else if mat.type = "VelDependent" then
      [Op.frictionModelCmd "VelDependent" mat.id
        [mat.params.mu_slow.getD 0.01, mat.params.mu_fast.getD 0.02,
         mat.params.trans_rate.getD 0.4]]
    else [])

/-- `_define_sections`: only Elastic sections are supported.  The Python
expression `props.get("E") or _get_material_E(...)` falls through to the
material modulus when the property is missing or zero (falsy). -/
def _define_sections (sections : List Section) (m : Model) (ndm : Nat) : List Op :=
  sections.flatMap (fun sec =>
    if sec.type = "Elastic" then
      let e0 := sec.properties.E.getD 0
      let E := if e0 ≠ 0 then e0 else _get_material_E m sec.material_id
      let A := sec.properties.A.getD 1
      let Iz := sec.properties.Iz.getD 1
      if 3 ≤ ndm then
        let Iy := sec.properties.Iy.getD Iz
        let G := E / 2.6
        let J := sec.properties.J.getD 1
        [Op.sectionCmd "Elastic" sec.id [E, A, Iz, Iy, G, J]]
      else
        [Op.sectionCmd "Elastic" sec.id [E, A, Iz]]
    else [])

/-- First loop of `_build_2d_elements`: allocate one geometric-transformation
tag per distinct transform name, in order of first occurrence, starting at
tag 1.  Returns the tag dictionary and the emitted `geomTransf` calls. -/
def transfTags2d (elements : List Element) : List (String × Nat) × List Op :=
  let acc := elements.foldl (fun (acc : List (String × Nat) × Nat) e =>
    let tname := e.transform.getD "Linear"
    if (acc.1.lookup tname).isSome then acc
    else (acc.1 ++ [(tname, acc.2)], acc.2 + 1)) ([], 1)
  (acc.1, acc.1.map (fun p => Op.geomTransfCmd p.1 p.2 []))

/-- `_build_2d_elements`: transform definitions, then per-element
`elasticBeamColumn` / `Truss` / `zeroLength` calls; unknown types are
skipped with a warning. -/
def _build_2d_elements (m : Model) : List Op :=
  let tt := transfTags2d m.elements
  tt.2 ++ m.elements.flatMap (fun e =>
    let tname := e.transform.getD "Linear"
    let transf_tag := (tt.1.lookup tname).getD 1
    if e.type = "elasticBeamColumn" then
      let sec := _find_section m (e.section_id.getD 0)
      let A := (sec.map (fun s => s.properties.A.getD 1)).getD 1
      let E := (sec.map (fun s => _get_material_E m s.material_id)).getD 1
      let Iz := (sec.map (fun s => s.properties.Iz.getD 1)).getD 1
      [Op.elementCmd "elasticBeamColumn" e.id e.nodes [A, E, Iz] [transf_tag]]
    else if e.type = "truss" then
      let sec := _find_section m (e.section_id.getD 0)
      let A := (sec.map (fun s => s.properties.A.getD 1)).getD 1
      let mat_id := (sec.map (fun s => s.material_id.getD 1)).getD 1
      [Op.elementCmd "Truss" e.id e.nodes [A] [mat_id]]
    else if e.type = "zeroLength" then
      [Op.elementCmd "zeroLength" e.id e.nodes [] [e.section_id.getD 1, 1]]
    else [])

/-- The padded node-coordinate dictionary built during `build_model`'s node
loop (`node_coords[nid] = coords[:ndm]`); prepend-on-write so later
duplicates win on lookup, as for a Python dict. -/
def nodeCoordsDict (ndm : Nat) (nodes : List Node) : List (Nat × List ℚ) :=
  nodes.foldl (fun dict n =>
    (n.id, (n.coords ++ List.replicate (ndm - n.coords.length) 0).take ndm) :: dict) []

/-- Per-element body of `_build_3d_elements` for an `elasticBeamColumn`:
compute the element direction, choose the `vecxz` reference vector (global X
for near-vertical members, the vertical axis otherwise), emit a dedicated
`geomTransf` and the element call with `Iy`/`Iz` swapped for Z-up models.
`math.sqrt` is the oracle's. -/
def beamColumn3dOps (o : Oracle) (m : Model) (coordsDict : List (Nat × List ℚ))
    (z_up : Bool) (transf_tag : Nat) (e : Element) : List Op :=
  let sec := _find_section m (e.section_id.getD 0)
  let A := (sec.map (fun s => s.properties.A.getD 1)).getD 1
  let E := (sec.map (fun s => _get_material_E m s.material_id)).getD 1
  let Iz_section := (sec.map (fun s => s.properties.Iz.getD 1)).getD 1
  let Iy_section := (sec.map (fun s => s.properties.Iy.getD Iz_section)).getD Iz_section
  let J := (sec.map (fun s => s.properties.J.getD 1)).getD 1
  let G := ((sec.map (fun s => s.properties.G)).getD none).getD (E / 2.6)
  let ci := (coordsDict.lookup (e.nodes.getD 0 0)).getD [0, 0, 0]
  let cj := (coordsDict.lookup (e.nodes.getD 1 0)).getD [0, 0, 0]
  let dx := cj.getD 0 0 - ci.getD 0 0
  let dy := if 1 < ci.length then cj.getD 1 0 - ci.getD 1 0 else 0
  let dz := if 2 < ci.length then cj.getD 2 0 - ci.getD 2 0 else 0
  let length := o.sqrt (dx * dx + dy * dy + dz * dz)
  let vecxz : List ℚ :=
    if length < 1e-12 then [0, 0, 1]
    else
      let ly := dy / length
      let lz := dz / length
      let vertical_component := if z_up then lz else ly
      if 0.9 < |vertical_component| then [1, 0, 0]
      else if z_up then [0, 0, 1] else [0, 1, 0]
  let tname := e.transform.getD "Linear"
  let Iy_elem := if z_up then Iz_section else Iy_section
  let Iz_elem := if z_up then Iy_section else Iz_section
  [Op.geomTransfCmd tname transf_tag vecxz,
   Op.elementCmd "elasticBeamColumn" e.id e.nodes [A, E, G, J, Iy_elem, Iz_elem]
     [transf_tag]]

/-- One iteration of `_build_3d_elements`'s element loop, carrying the
`_next_transform` counter (incremented only for beam-columns, which each get
their own transform). -/
def elem3dStep (o : Oracle) (m : Model) (coordsDict : List (Nat × List ℚ))
    (z_up : Bool) (acc : List Op × Nat) (e : Element) : List Op × Nat :=
  if e.type = "elasticBeamColumn" then
    (acc.1 ++ beamColumn3dOps o m coordsDict z_up acc.2 e, acc.2 + 1)
  else if e.type = "truss" then
    let sec := _find_section m (e.section_id.getD 0)
    let A := (sec.map (fun s => s.properties.A.getD 1)).getD 1
    let mat_id := (sec.map (fun s => s.material_id.getD 1)).getD 1
    (acc.1 ++ [Op.elementCmd "Truss" e.id e.nodes [A] [mat_id]], acc.2)
  else if e.type = "zeroLength" then
    (acc.1 ++ [Op.elementCmd "zeroLength" e.id e.nodes [] [e.section_id.getD 1, 1]],
     acc.2)
  else (acc.1, acc.2)

/-- `_build_3d_elements`: the fold of `elem3dStep` over the elements. -/
def _build_3d_elements (o : Oracle) (m : Model) (coordsDict : List (Nat × List ℚ)) :
    List Op :=
  (m.elements.foldl (elem3dStep o m coordsDict (m.model_info.z_up.getD false)) ([], 1)).1

/-- `_define_bearings` body for one bearing: four `VelDependent` friction
models (repeating the last surface when fewer than four are given), a
vertical and three rotational elastic materials, then the
`TripleFrictionPendulum` element call.  For 3D domains the 3-friction +
4-material signature is attempted first; when the engine rejects it
(`tfpFirstSigRaises`) or the model is 2D, the 4-friction signature is used. -/
def bearingOps1 (o : Oracle) (ndm : Nat) (b : Bearing) : List Op :=
  let fmTag := fun (j : Nat) => 1000 + (b.id - 1) * 10 + j + 1
  let fmEvents := (List.range 4).map (fun j =>
    let idx := if j < b.friction_models.length then j else b.friction_models.length - 1
    let fm := b.friction_models.getD idx { mu_slow := 0, mu_fast := 0, trans_rate := 0 }
    Op.frictionModelCmd "VelDependent" (fmTag j) [fm.mu_slow, fm.mu_fast, fm.trans_rate])
  let W := b.weight
  let vert_stiff := b.vert_stiffness.getD (if W > 0 then 100 * W else 1000000)
  let vert_mat_tag := 5000 + b.id * 10 + 1
  let rot_z_tag := 5000 + b.id * 10 + 2
  let rot_x_tag := 5000 + b.id * 10 + 3
  let rot_y_tag := 5000 + b.id * 10 + 4
  let matEvents :=
    [Op.uniaxialMaterialCmd "Elastic" vert_mat_tag [vert_stiff],
     Op.uniaxialMaterialCmd "Elastic" rot_z_tag [10000000000],
     Op.uniaxialMaterialCmd "Elastic" rot_x_tag [10000000000],
     Op.uniaxialMaterialCmd "Elastic" rot_y_tag [10000000000]]
  let geom := [b.radii.getD 0 0, b.radii.getD 1 0, b.radii.getD 2 0,
               b.disp_capacities.getD 0 0, b.disp_capacities.getD 1 0,
               b.disp_capacities.getD 2 0]
  let numeric := [W, b.uy.getD 0.04, b.kvt.getD 1, b.min_fv.getD 0.1, b.tol.getD 1e-5]
  let ele_tag := 10000 + b.id
  let fourFrictionSig :=
    Op.elementCmd "TripleFrictionPendulum" ele_tag b.nodes (geom ++ numeric)
      [fmTag 0, fmTag 1, fmTag 2, fmTag 3]
  let ele :=
    if 3 ≤ ndm then
      if o.tfpFirstSigRaises then fourFrictionSig
      else
        Op.elementCmd "TripleFrictionPendulum" ele_tag b.nodes (geom ++ numeric)
          [fmTag 0, fmTag 1, fmTag 2, vert_mat_tag, rot_z_tag, rot_x_tag, rot_y_tag]
    else fourFrictionSig
  fmEvents ++ matEvents ++ [ele]

/-- `_define_bearings` over the bearing list. -/
def _define_bearings (o : Oracle) (bearings : List Bearing) (ndm : Nat) : List Op :=
  bearings.flatMap (bearingOps1 o ndm)

/-- `build_model`: model dimensionality, nodes and fixities, materials,
sections, elements (2D or 3D path), and TFP bearings, in source order.  The
function emits engine calls only, so it is a pure trace producer. -/
def build_model (o : Oracle) (m : Model) : List Op :=
  let ndm := m.ndm
  let ndf := m.ndf
  [Op.modelCmd ndm ndf]
    ++ m.nodes.flatMap (nodeOps ndm ndf)
    ++ _define_materials m.materials
    ++ _define_sections m.sections m ndm
    ++ (if 3 ≤ ndm then _build_3d_elements o m (nodeCoordsDict ndm m.nodes)
        else _build_2d_elements m)
    ++ _define_bearings o m.bearings ndm

/-- `_apply_nodal_loads`: one `ops.load` per nodal load with a truthy
`node_id`, values zero-padded to `ndf` and truncated. -/
def _apply_nodal_loads (m : Model) : List Op :=
  let ndf := m.ndf
  m.loads.flatMap (fun l =>
    if l.type = "nodal" ∧ l.node_id.getD 0 ≠ 0 then
      [Op.loadCmd (l.node_id.getD 0)
        ((l.values ++ List.replicate (ndf - l.values.length) 0).take ndf)]
    else [])

/-- The translational/rotational lumped-mass argument vector of
`_assign_mass` (mass on the first three DOFs, 1e-10 on the rest). -/
def massArgs (ndf : Nat) (mass : ℚ) : List ℚ :=
  (List.range ndf).map (fun dof_idx => if dof_idx < 3 then mass else 1e-10)

/-- `_assign_mass`: mass from negative vertical nodal loads (`-F_vert / g`),
then bearing weights lumped at each bearing's top node. -/
def _assign_mass (m : Model) : List Op :=
  let g := _get_gravity m
  let ndf := m.ndf
  let vert_dof_idx := _vert_coord_idx m
  m.loads.flatMap (fun l =>
    if l.type = "nodal" ∧ l.node_id.getD 0 ≠ 0 ∧ vert_dof_idx < l.values.length ∧
        l.values.getD vert_dof_idx 0 < 0 then
      [Op.massCmd (l.node_id.getD 0) (massArgs ndf ((-(l.values.getD vert_dof_idx 0)) / g))]
    else [])
  ++ m.bearings.flatMap (fun b =>
    if b.weight > 0 then [Op.massCmd (b.nodes.getD 1 0) (massArgs ndf (b.weight / g))]
    else [])

/-- The `for _sub in range(10)` mini-step loop of `_run_gravity_preload`'s
third fallback: each mini step gets one ModifiedNewton retry; the loop stops
at the first failed mini step. -/
def preloadSubLoop (o : Oracle) (k : Nat) : Nat → Nat × Bool × List Op
  | 0 => (k, true, [])
  | c + 1 =>
    let r1 := o.analyzeCode k
    let retry :=
      if r1 ≠ 0 then
        (k + 2, o.analyzeCode (k + 1),
         [Op.analyzeCmd, Op.algorithmCmd "ModifiedNewton", Op.analyzeCmd,
          Op.algorithmCmd "Newton"])
      else (k + 1, r1, [Op.analyzeCmd])
    if retry.2.1 ≠ 0 then (retry.1, false, retry.2.2)
    else
      let rest := preloadSubLoop o retry.1 c
      (rest.1, rest.2.1, retry.2.2 ++ rest.2.2)

/-- One step of `_run_gravity_preload`: Newton, then ModifiedNewton, then
KrylovNewton (restoring Newton after each fallback), then the dLambda/10
sub-stepping fallback with the integrator restored afterwards. -/
def preloadStep (o : Oracle) (k : Nat) (dLambda : ℚ) : Nat × Bool × List Op :=
  let r1 := o.analyzeCode k
  if r1 = 0 then (k + 1, true, [Op.analyzeCmd])
  else
    let t2 := [Op.analyzeCmd, Op.algorithmCmd "ModifiedNewton", Op.analyzeCmd,
               Op.algorithmCmd "Newton"]
    let r2 := o.analyzeCode (k + 1)
    if r2 = 0 then (k + 2, true, t2)
    else
      let t3 := t2 ++ [Op.algorithmCmd "KrylovNewton", Op.analyzeCmd,
                       Op.algorithmCmd "Newton"]
      let r3 := o.analyzeCode (k + 2)
      if r3 = 0 then (k + 3, true, t3)
      else
        let sub := preloadSubLoop o (k + 3) 10
        (sub.1, sub.2.1,
         t3 ++ [Op.integratorCmd "LoadControl" [dLambda / 10]] ++ sub.2.2
            ++ [Op.integratorCmd "LoadControl" [dLambda]])

/-- The `for step in range(num_steps)` loop of `_run_gravity_preload`,
returning -3 as soon as a step fails even after sub-stepping, and issuing
`loadConst` after a fully converged run. -/
def preloadLoop (o : Oracle) (k : Nat) (dLambda : ℚ) : Nat → Nat × Int × List Op
  | 0 => (k, 0, [Op.loadConstCmd])
  | n + 1 =>
    let step := preloadStep o k dLambda
    if step.2.1 then
      let rest := preloadLoop o step.1 dLambda n
      (rest.1, rest.2.1, step.2.2 ++ rest.2.2)
    else (step.1, -3, step.2.2)

/-- `_run_gravity_preload`: incremental gravity application for TFP bearing
models.  Takes and returns the running analyze-call counter. -/
def _run_gravity_preload (o : Oracle) (m : Model) (k : Nat) (num_steps : Nat := 10) :
    Nat × Int × List Op :=
  let dLambda : ℚ := 1 / (num_steps : ℚ)
  let setup :=
    [Op.timeSeriesCmd "Linear" 1 [], Op.patternCmd "Plain" 1 [1]] ++ _apply_nodal_loads m
      ++ [Op.constraintsCmd "Transformation", Op.numbererCmd "RCM",
          (if 4 < m.bearings.length then Op.systemCmd "UmfPack"
           else Op.systemCmd "BandGeneral"),
          Op.testCmd "NormDispIncr" [1e-4, 200], Op.algorithmCmd "Newton",
          Op.integratorCmd "LoadControl" [dLambda], Op.analysisCmd "Static"]
  let lp := preloadLoop o k dLambda num_steps
  (lp.1, lp.2.1, setup ++ lp.2.2)

/-- Results of `run_static_analysis`. -/
structure StaticResult where
  node_displacements : List (Nat × List ℚ)
  element_forces : List (Nat × List ℚ)
  reactions : List (Nat × List ℚ)
  deformed_shape : List (Nat × List ℚ)
  discretization_map : List (Nat × DiscEntry)
  internal_node_coords : List (Nat × List ℚ)
  deriving Repr, DecidableEq

/-- Body of `run_static_analysis` (inside the `try`): discretize, build,
apply gravity (incremental for bearing models, single-step otherwise), raise
on non-convergence, then gather displacements, reactions, element forces and
the deformed shape. -/
def staticBody (o : Oracle) (m0 : Model) : Except String StaticResult × List Op :=
  let dres := _discretize_elements m0 5
  let m := dres.1
  let bops := build_model o m
  let has_bearings := !m.bearings.isEmpty
  let gr :=
    if has_bearings then _run_gravity_preload o m 0 50
    else
      let setup := [Op.timeSeriesCmd "Linear" 1 [], Op.patternCmd "Plain" 1 [1]]
        ++ _apply_nodal_loads m
        ++ [Op.constraintsCmd "Transformation", Op.numbererCmd "RCM",
            Op.systemCmd "BandGeneral", Op.testCmd "NormDispIncr" [1e-8, 10],
            Op.algorithmCmd "Newton", Op.integratorCmd "LoadControl" [1],
            Op.analysisCmd "Static", Op.analyzeCmd]
      (1, o.analyzeCode 0, setup)
  if gr.2.1 ≠ 0 then
    (.error "Static analysis failed to converge", bops ++ gr.2.2)
  else
    let k1 := gr.1
    let ndf := m.ndf
    let ndm := m.ndm
    let node_displacements := m.nodes.map (fun n =>
      (n.id, (List.range ndf).map (fun dof => o.nodeDisp k1 n.id (dof + 1))))
    let reactionNodes := m.nodes.filter (fun n =>
      !n.fixity.isEmpty && n.fixity.any (fun f => f == 1))
    let reactions := reactionNodes.map (fun n =>
      (n.id, (List.range ndf).map (fun dof => o.nodeReaction k1 n.id (dof + 1))))
    let rops := reactionNodes.map (fun _ => Op.reactionsCmd)
    let element_forces := m.elements.map (fun e => (e.id, (o.eleForce k1 e.id).getD []))
    let deformed_shape := _compute_deformed_shape m node_displacements ndm 1
    (.ok { node_displacements := node_displacements, element_forces := element_forces,
           reactions := reactions, deformed_shape := deformed_shape,
           discretization_map := dres.2.1, internal_node_coords := dres.2.2 },
     bops ++ gr.2.2 ++ rops)

/-- `run_static_analysis`: `ops.wipe()` on entry, the body, and the
`finally: ops.wipe()` that runs on every exit path (normal or raised). -/
def run_static_analysis (o : Oracle) (m0 : Model) :
    Except String StaticResult × List Op :=
  let body := staticBody o m0
  (body.1, [Op.wipe] ++ body.2 ++ [Op.wipe])

/-- Nodes that are not fully fixed (`if fixity and all(f == 1 ...): continue`). -/
def freeNodesOf (nodes : List Node) : List Node :=
  nodes.filter (fun n => !(!n.fixity.isEmpty && n.fixity.all (fun f => f == 1)))

/-- Insert-or-replace on an association list, preserving key order - the
semantics of a Python dict write. -/
def dictSet (d : List (Nat × ℚ)) (key : Nat) (v : ℚ) : List (Nat × ℚ) :=
  if (d.lookup key).isSome then d.map (fun p => if p.1 = key then (p.1, v) else p)
  else d ++ [(key, v)]

/-- The node-mass dictionary of `run_modal_analysis` (lines 494-504, same
logic as `_assign_mass`): `-F_vert / g` from nodal loads, then bearing
weights at top nodes, later writes overwriting earlier ones. -/
def nodeMassesOf (m : Model) : List (Nat × ℚ) :=
  let g := _get_gravity m
  let vert_dof_idx := _vert_coord_idx m
  let d1 := m.loads.foldl (fun d l =>
    if l.type = "nodal" ∧ l.node_id.getD 0 ≠ 0 ∧ vert_dof_idx < l.values.length ∧
        l.values.getD vert_dof_idx 0 < 0 then
      dictSet d (l.node_id.getD 0) ((-(l.values.getD vert_dof_idx 0)) / g)
    else d) []
  m.bearings.foldl (fun d b =>
    if b.weight > 0 then dictSet d (b.nodes.getD 1 0) (b.weight / g) else d) d1

/-- Results of `run_modal_analysis`. -/
structure ModalResult where
  periods : List ℚ
  frequencies : List ℚ
  mode_shapes : List (Nat × List (Nat × List ℚ))
  mass_participation : List (String × List ℚ)
  discretization_map : List (Nat × DiscEntry)
  internal_node_coords : List (Nat × List ℚ)

/-- Body of `run_modal_analysis`: discretize, build, assign mass, gravity
preload for bearing models, then the (unguarded) `ops.eigen` call - whose
failure propagates - followed by period/frequency extraction, mode shapes
over the free nodes, and mass-participation ratios. -/
def modalBody (o : Oracle) (m0 : Model) (num_modes : Nat) :
    Except String ModalResult × List Op :=
  let dres := _discretize_elements m0 5
  let m := dres.1
  let bops := build_model o m
  let mops := _assign_mass m
  let has_bearings := !m.bearings.isEmpty
  let gr := if has_bearings then _run_gravity_preload o m 0 50
            else (0, 0, ([] : List Op))
  let pre := bops ++ mops ++ gr.2.2 ++ [Op.eigenCmd num_modes]
  if o.eigenRaises then (.error "eigen analysis failed", pre)
  else
    let eigenvalues := o.eigenVals num_modes
    let free_nodes := freeNodesOf m.nodes
    let node_masses := nodeMassesOf m
    let ndf := m.ndf
    let ndm := m.ndm
    let periods := eigenvalues.map (fun ev =>
      if ev > 0 then 2 * o.pi / o.sqrt ev else 0)
    let frequencies := eigenvalues.map (fun ev =>
      if ev > 0 then 1 / (2 * o.pi / o.sqrt ev) else 0)
    let mode_shapes := (List.range eigenvalues.length).map (fun i =>
      (i + 1, free_nodes.map (fun n =>
        (n.id, (List.range ndf).map (fun dof =>
          o.nodeEigenvector n.id (i + 1) (dof + 1))))))
    let direction_labels := (["X", "Y", "Z"].take ndm)
    let total_mass := if node_masses.isEmpty then 1 else (node_masses.map Prod.snd).sum
    let mass_participation := direction_labels.enum.map (fun p =>
      (p.2, (List.range eigenvalues.length).map (fun i =>
        let L_n := (free_nodes.map (fun n =>
          ((node_masses.lookup n.id).getD 0) * o.nodeEigenvector n.id (i + 1) (p.1 + 1))).sum
        let M_n := (free_nodes.map (fun n =>
          let phi := o.nodeEigenvector n.id (i + 1) (p.1 + 1)
          ((node_masses.lookup n.id).getD 0) * phi * phi)).sum
        if M_n > 0 ∧ total_mass > 0 then (L_n * L_n) / (M_n * total_mass) else 0)))
    (.ok { periods := periods, frequencies := frequencies, mode_shapes := mode_shapes,
           mass_participation := mass_participation, discretization_map := dres.2.1,
           internal_node_coords := dres.2.2 }, pre)

/-- `run_modal_analysis` with the entry wipe and the `finally` wipe. -/
def run_modal_analysis (o : Oracle) (m0 : Model) (num_modes : Nat := 3) :
    Except String ModalResult × List Op :=
  let body := modalBody o m0 num_modes
  (body.1, [Op.wipe] ++ body.2 ++ [Op.wipe])

/-- Per-bearing response histories recorded by `run_time_history`. -/
structure BearingHist where
  displacement_x : List ℚ
  displacement_y : List ℚ
  displacement_z : List ℚ
  force_x : List ℚ
  force_y : List ℚ
  axial_force : List ℚ
  deriving Repr, DecidableEq

/-- Results of `run_time_history`. -/
structure THResult where
  time : List ℚ
  node_displacements : List (Nat × List (List ℚ))
  element_forces : List (Nat × List (List ℚ))
  bearing_responses : List (Nat × BearingHist)
  discretization_map : List (Nat × DiscEntry)
  internal_node_coords : List (Nat × List ℚ)
  deriving Repr, DecidableEq

/-- The nested `_analyze_step` closure of `run_time_history`: Newton, then
ModifiedNewton, then (with the extended fallback) KrylovNewton, each wrapped
against `StopIteration` (result -99); only the first raise returns
immediately. -/
def _analyze_step (o : Oracle) (k : Nat) (use_extended_fallback : Bool) :
    Nat × Int × List Op :=
  if o.stopIter k then (k + 1, -99, [Op.analyzeCmd])
  else
    let r1 := o.analyzeCode k
    if r1 = 0 then (k + 1, 0, [Op.analyzeCmd])
    else
      let r2 : Int := if o.stopIter (k + 1) then -99 else o.analyzeCode (k + 1)
      let t2 := [Op.analyzeCmd, Op.algorithmCmd "ModifiedNewton", Op.analyzeCmd,
                 Op.algorithmCmd "Newton"]
      if r2 = 0 then (k + 2, 0, t2)
      else if use_extended_fallback then
        let r3 : Int := if o.stopIter (k + 2) then -99 else o.analyzeCode (k + 2)
        (k + 3, r3,
         t2 ++ [Op.algorithmCmd "KrylovNewton", Op.analyzeCmd, Op.algorithmCmd "Newton"])
      else (k + 2, r2, t2)

/-- A sub-stepping loop of `run_time_history` (levels 1 and 2): run `count`
sub-increments through `_analyze_step` with the extended fallback, stopping
at the first failure and reporting its index (`failed_sub`). -/
def thSubLoop (o : Oracle) (k idx : Nat) : Nat → Nat × Bool × Nat × List Op
  | 0 => (k, true, idx, [])
  | c + 1 =>
    let a := _analyze_step o k true
    if a.2.1 = 0 then
      let rest := thSubLoop o a.1 (idx + 1) c
      (rest.1, rest.2.1, rest.2.2.1, a.2.2 ++ rest.2.2.2)
    else (a.1, false, idx, a.2.2)

/-- One full outer integration step of `run_time_history`: the retry ladder,
then for bearing models level-1 sub-stepping (dt/10, or dt/20 for more than
four bearings) and level-2 sub-stepping of the remaining portion by a
further factor 5.  Returns whether the step ultimately converged. -/
def thStepAttempt (o : Oracle) (k : Nat) (has_bearings many_bearings : Bool) :
    Nat × Bool × List Op :=
  let a := _analyze_step o k has_bearings
  if a.2.1 = 0 then (a.1, true, a.2.2)
  else if has_bearings then
    let n_sub1 := if many_bearings then 20 else 10
    let s1 := thSubLoop o a.1 0 n_sub1
    if s1.2.1 then (s1.1, true, a.2.2 ++ s1.2.2.2)
    else
      let failed_sub := s1.2.2.1
      let n_sub2 := max 1 ((n_sub1 - failed_sub) * 5)
      let s2 := thSubLoop o s1.1 0 n_sub2
      (s2.1, s2.2.1, a.2.2 ++ s1.2.2.2 ++ s2.2.2.2)
  else (a.1, false, a.2.2)

/-- Mutable loop state of `run_time_history`'s integration loop. -/
structure THState where
  k : Nat
  currentTime : ℚ
  time : List ℚ
  ndh : List (Nat × List (List ℚ))
  efh : List (Nat × List (List ℚ))
  brh : List (Nat × BearingHist)
  trace : List Op
  deriving Repr

/-- Recording phase of one converged time-history step: advance time, append
nodal displacements per free node and DOF, append element force components
(new components are back-filled with zeros), and append the six bearing
response series (zeros when the bearing queries raise). -/
def thRecord (o : Oracle) (dt : ℚ) (st : THState) : THState :=
  let t := st.currentTime + dt
  let time := st.time ++ [t]
  let ndh := st.ndh.map (fun p =>
    (p.1, p.2.mapIdx (fun dof s => s ++ [o.nodeDisp st.k p.1 (dof + 1)])))
  let efh := st.efh.map (fun p =>
    let force_vals := (o.eleForce st.k p.1).getD []
    let mcount := p.2.length
    (p.1, p.2.mapIdx (fun idx s => s ++ [force_vals.getD idx 0])
          ++ (List.range (force_vals.length - mcount)).map (fun j =>
               List.replicate (time.length - 1) 0 ++ [force_vals.getD (mcount + j) 0])))
  let brh := st.brh.map (fun p =>
    let ele_tag := 10000 + p.1
    match o.eleBasicDisp st.k ele_tag, o.eleBasicForce st.k ele_tag with
    | some disp_vals, some force_vals =>
      let axial := if 2 < force_vals.length then force_vals.getD 2 0
                   else if 1 < force_vals.length then force_vals.getD 1 0 else 0
      (p.1,
       { displacement_x := p.2.displacement_x ++ [disp_vals.getD 0 0]
         displacement_y := p.2.displacement_y ++ [disp_vals.getD 1 0]
         displacement_z := p.2.displacement_z ++ [disp_vals.getD 2 0]
         force_x := p.2.force_x ++ [force_vals.getD 0 0]
         force_y := p.2.force_y ++ [force_vals.getD 1 0]
         axial_force := p.2.axial_force ++ [axial] })
    | _, _ =>
      (p.1,
       { displacement_x := p.2.displacement_x ++ [0]
         displacement_y := p.2.displacement_y ++ [0]
         displacement_z := p.2.displacement_z ++ [0]
         force_x := p.2.force_x ++ [0]
         force_y := p.2.force_y ++ [0]
         axial_force := p.2.axial_force ++ [0] }))
  { st with currentTime := t, time := time, ndh := ndh, efh := efh, brh := brh }

/-- The `for step in range(num_steps)` integration loop of
`run_time_history`: on a converged step, record and continue; on a step that
fails even after sub-stepping, break (truncating every series). -/
def thLoop (o : Oracle) (has_bearings many_bearings : Bool) (dt : ℚ) :
    Nat → THState → THState
  | 0, st => st
  | n + 1, st =>
    let att := thStepAttempt o st.k has_bearings many_bearings
    if att.2.1 then
      thLoop o has_bearings many_bearings dt n
        (thRecord o dt { st with k := att.1, trace := st.trace ++ att.2.2 })
    else { st with k := att.1, trace := st.trace ++ att.2.2 }

/-- The number of converged outer steps of the same integration loop: the
count after which `run_time_history` truncates its series. -/
def thConvergedSteps (o : Oracle) (has_bearings many_bearings : Bool) :
    Nat → Nat → Nat
  | _, 0 => 0
  | k, n + 1 =>
    let att := thStepAttempt o k has_bearings many_bearings
    if att.2.1 then thConvergedSteps o has_bearings many_bearings att.1 n + 1
    else 0

/-- Initial result containers of `run_time_history`: one empty series per
free node and DOF, one (initially component-free) map per element, six empty
series per bearing. -/
def thInitState (m : Model) (ndf : Nat) (trace0 : List Op) (k : Nat) : THState :=
  { k := k, currentTime := 0, time := []
    ndh := (freeNodesOf m.nodes).map (fun n => (n.id, List.replicate ndf []))
    efh := m.elements.map (fun e => (e.id, []))
    brh := m.bearings.map (fun b =>
      (b.id, { displacement_x := [], displacement_y := [], displacement_z := []
               force_x := [], force_y := [], axial_force := [] }))
    trace := trace0 }

/-- The integration loop of `run_time_history` started on fresh containers:
free-node, element and bearing series all empty, analyze counter `k0`. -/
def thRun (o : Oracle) (m : Model) (dt : ℚ) (num_steps : Nat) (trace0 : List Op)
    (k0 : Nat) : THState :=
  thLoop o (!m.bearings.isEmpty) (4 < m.bearings.length) dt num_steps
    (thInitState m m.ndf trace0 k0)

/-- Body of `run_time_history`: discretize, build, assign mass, gravity
preload for bearing models, clear the static analysis state, define the
ground-motion series and uniform excitation, set Rayleigh damping from the
first mode (guarded: 1.0 on eigen failure or non-positive eigenvalue),
configure the transient analysis, and run the integration loop.  The loop
never raises: convergence failure truncates the result series. -/
def thBody (o : Oracle) (m0 : Model) (ground_motion : List ℚ) (dt : ℚ)
    (num_steps : Nat) (direction : Int) : Except String THResult × List Op :=
  let dres := _discretize_elements m0 5
  let m := dres.1
  let bops := build_model o m
  let mops := _assign_mass m
  let has_bearings := !m.bearings.isEmpty
  let gr := if has_bearings then _run_gravity_preload o m 0 50
            else (0, 0, ([] : List Op))
  let exc_direction : Int :=
    if direction = 1 ∨ direction = 2 ∨ direction = 3 then direction else 1
  let setup1 := [Op.wipeAnalysisOp, Op.timeSeriesCmd "Path" 100 (dt :: ground_motion),
                 Op.patternCmd "UniformExcitation" 100 [exc_direction, 100],
                 Op.eigenCmd 1]
  let omega1 :=
    if o.eigenRaises then 1
    else
      let ev := o.eigenVals 1
      if ev.isEmpty then 1
      else if ev.getD 0 0 > 0 then o.sqrt (ev.getD 0 0) else 1
  let a0 := 2 * 0.05 * omega1
  let cfg := [Op.rayleighCmd a0, Op.constraintsCmd "Transformation", Op.numbererCmd "RCM"]
    ++ (if has_bearings then
          [Op.systemCmd "UmfPack", Op.testCmd "NormDispIncr" [1e-4, 100]]
        else
          [Op.systemCmd "BandGeneral", Op.testCmd "NormDispIncr" [1e-5, 50]])
    ++ [Op.algorithmCmd "Newton", Op.integratorCmd "Newmark" [0.5, 0.25],
        Op.analysisCmd "Transient"]
  let stF := thRun o m dt num_steps (bops ++ mops ++ gr.2.2 ++ setup1 ++ cfg) gr.1
  (.ok { time := stF.time, node_displacements := stF.ndh, element_forces := stF.efh,
         bearing_responses := stF.brh, discretization_map := dres.2.1,
         internal_node_coords := dres.2.2 }, stF.trace)

/-- `run_time_history` with the entry wipe and the `finally` wipe. -/
def run_time_history (o : Oracle) (m0 : Model) (ground_motion : List ℚ) (dt : ℚ)
    (num_steps : Nat) (direction : Int := 1) : Except String THResult × List Op :=
  let body := thBody o m0 ground_motion dt num_steps direction
  (body.1, [Op.wipe] ++ body.2 ++ [Op.wipe])

/-- One point of the pushover capacity curve. -/
structure CapacityPoint where
  base_shear : ℚ
  roof_displacement : ℚ
  deriving Repr, DecidableEq

/-- One periodic full-model snapshot of the pushover loop. -/
structure PushoverStepRec where
  step : Nat
  base_shear : ℚ
  roof_displacement : ℚ
  node_displacements : List (Nat × List ℚ)
  deriving Repr, DecidableEq

/-- Results of `run_pushover_analysis`. -/
structure PushoverResult where
  capacity_curve : List CapacityPoint
  hinge_states : List HingeState
  max_base_shear : ℚ
  max_roof_displacement : ℚ
  steps : List PushoverStepRec
  node_displacements : List (Nat × List ℚ)
  element_forces : List (Nat × List ℚ)
  reactions : List (Nat × List ℚ)
  deformed_shape : List (Nat × List ℚ)
  discretization_map : List (Nat × DiscEntry)
  internal_node_coords : List (Nat × List ℚ)
  deriving Repr, DecidableEq

/-- The pushover retry ladder for one displacement increment: Newton, then
ModifiedNewton, then KrylovNewton, restoring Newton after each fallback. -/
def poStepAttempt (o : Oracle) (k : Nat) : Nat × Bool × List Op :=
  let r1 := o.analyzeCode k
  if r1 = 0 then (k + 1, true, [Op.analyzeCmd])
  else
    let t2 := [Op.analyzeCmd, Op.algorithmCmd "ModifiedNewton", Op.analyzeCmd,
               Op.algorithmCmd "Newton"]
    let r2 := o.analyzeCode (k + 1)
    if r2 = 0 then (k + 2, true, t2)
    else
      let r3 := o.analyzeCode (k + 2)
      (k + 3, r3 = 0,
       t2 ++ [Op.algorithmCmd "KrylovNewton", Op.analyzeCmd, Op.algorithmCmd "Newton"])

/-- Mutable loop state of the pushover stepping loop. -/
structure POState where
  k : Nat
  capacity_curve : List CapacityPoint
  steps : List PushoverStepRec
  trace : List Op
  deriving Repr

/-- Recording phase of one converged pushover step: control-node
displacement, base shear as the negated sum of reactions at the fully fixed
nodes along the control DOF, the capacity-curve point, and (every
`max(1, num_steps // 20)`-th step or on the last step) a full-model
displacement snapshot. -/
def poRecord (o : Oracle) (m : Model) (ndf : Nat) (fixed_nodes : List Node)
    (ctrl control_dof num_steps step_num : Nat) (st : POState) : POState :=
  let roof_disp := o.nodeDisp st.k ctrl control_dof
  let base_shear := -((fixed_nodes.map (fun n => o.nodeReaction st.k n.id control_dof)).sum)
  let cc := st.capacity_curve
    ++ [{ base_shear := base_shear, roof_displacement := roof_disp }]
  let snap := step_num % max 1 (num_steps / 20) = 0 ∨ step_num = num_steps - 1
  let steps :=
    if snap then st.steps
      ++ [{ step := step_num, base_shear := base_shear, roof_displacement := roof_disp,
            node_displacements := m.nodes.map (fun n =>
              (n.id, (List.range ndf).map (fun dof => o.nodeDisp st.k n.id (dof + 1)))) }]
    else st.steps
  { st with capacity_curve := cc, steps := steps, trace := st.trace ++ [Op.reactionsCmd] }

/-- The `for step_num in range(num_steps)` pushover loop: converged steps are
recorded; a step that fails the whole ladder breaks the loop. -/
def poLoop (o : Oracle) (m : Model) (ndf : Nat) (fixed_nodes : List Node)
    (ctrl control_dof num_steps : Nat) : Nat → Nat → POState → POState
  | _, 0, st => st
  | step_num, r + 1, st =>
    let att := poStepAttempt o st.k
    if att.2.1 then
      poLoop o m ndf fixed_nodes ctrl control_dof num_steps (step_num + 1) r
        (poRecord o m ndf fixed_nodes ctrl control_dof num_steps step_num
          { st with k := att.1, trace := st.trace ++ att.2.2 })
    else { st with k := att.1, trace := st.trace ++ att.2.2 }

/-- The number of converged pushover steps (the capacity-curve length). -/
def poConvergedSteps (o : Oracle) : Nat → Nat → Nat
  | _, 0 => 0
  | k, r + 1 =>
    let att := poStepAttempt o k
    if att.2.1 then poConvergedSteps o att.1 r + 1 else 0

/-- Body of `run_pushover_analysis`: discretize, build, assign mass, split
free/fixed nodes (raising when no free node exists), auto-select the control
node as the topmost free node, optionally extract first-mode factors, apply
gravity, apply the lateral load pattern, configure displacement control, run
the stepping loop, then gather final-state results, hinge states and the
deformed shape. -/
def poBody (o : Oracle) (m0 : Model) (target_displacement : ℚ) (num_steps : Nat)
    (control_node : Option Nat) (control_dof : Nat) (load_pattern : String) :
    Except String PushoverResult × List Op :=
  let dres := _discretize_elements m0 5
  let m := dres.1
  let bops := build_model o m
  let mops := _assign_mass m
  let ndf := m.ndf
  let ndm := m.ndm
  let free_nodes := freeNodesOf m.nodes
  let fixed_nodes := m.nodes.filter (fun n =>
    !n.fixity.isEmpty && n.fixity.all (fun f => f == 1))
  match free_nodes with
  | [] => (.error "No free nodes found for pushover analysis", bops ++ mops)
  | fn0 :: fnRest =>
    let vert_idx := _vert_coord_idx m
    let ctrl := control_node.getD
      ((fnRest.foldl (fun best n =>
        if best.coords.getD vert_idx 0 < n.coords.getD vert_idx 0 then n else best)
        fn0).id)
    let fmRequested := load_pattern = "first_mode"
    let eigenOps := if fmRequested then [Op.eigenCmd 1] else []
    let fmExtract :=
      if fmRequested then
        if o.eigenRaises then (([] : List (Nat × ℚ)), "linear")
        else
          let ev := o.eigenVals 1
          if !ev.isEmpty ∧ ev.getD 0 0 > 0 then
            ((free_nodes.map (fun n => (n.id, o.nodeEigenvector n.id 1 control_dof))),
             "first_mode")
          else ([], "first_mode")
      else ([], load_pattern)
    let mode_shape_factors := fmExtract.1
    let lp := fmExtract.2
    let gr :=
      if !m.bearings.isEmpty then _run_gravity_preload o m 0 50
      else
        let setup := [Op.timeSeriesCmd "Linear" 1 [], Op.patternCmd "Plain" 1 [1]]
          ++ _apply_nodal_loads m
          ++ [Op.constraintsCmd "Transformation", Op.numbererCmd "RCM",
              Op.systemCmd "BandGeneral", Op.testCmd "NormDispIncr" [1e-6, 10],
              Op.algorithmCmd "Newton", Op.integratorCmd "LoadControl" [1],
              Op.analysisCmd "Static", Op.analyzeCmd, Op.loadConstCmd]
        (1, o.analyzeCode 0, setup)
    let lat1 := [Op.timeSeriesCmd "Linear" 2 [], Op.patternCmd "Plain" 2 [2]]
    let max_height := free_nodes.foldl (fun mh n =>
      if n.coords.getD vert_idx 0 > mh then n.coords.getD vert_idx 0 else mh) 0
    let loadOps := free_nodes.flatMap (fun n =>
      let height := n.coords.getD vert_idx 0
      let factor :=
        if lp = "first_mode" ∧ (mode_shape_factors.lookup n.id).isSome then
          |(mode_shape_factors.lookup n.id).getD 0|
        else if max_height > 0 then height / max_height
        else 1
      if factor > 0 then
        [Op.loadCmd n.id
          ((List.range ndf).map (fun i => if i = control_dof - 1 then factor else 0))]
      else [])
    let dU := target_displacement / (num_steps : ℚ)
    let cfg := [Op.constraintsCmd "Transformation", Op.numbererCmd "RCM",
                Op.systemCmd "BandGeneral", Op.testCmd "NormDispIncr" [1e-5, 100],
                Op.algorithmCmd "Newton",
                Op.integratorCmd "DisplacementControl" [(ctrl : ℚ), (control_dof : ℚ), dU],
                Op.analysisCmd "Static"]
    let st0 : POState :=
      { k := gr.1, capacity_curve := [], steps := []
        trace := bops ++ mops ++ eigenOps ++ gr.2.2 ++ lat1 ++ loadOps ++ cfg }
    let stF := poLoop o m ndf fixed_nodes ctrl control_dof num_steps 0 num_steps st0
    let k2 := stF.k
    let node_displacements := m.nodes.map (fun n =>
      (n.id, (List.range ndf).map (fun dof => o.nodeDisp k2 n.id (dof + 1))))
    let reactionNodes := m.nodes.filter (fun n =>
      !n.fixity.isEmpty && n.fixity.any (fun f => f == 1))
    let reactions := reactionNodes.map (fun n =>
      (n.id, (List.range ndf).map (fun dof => o.nodeReaction k2 n.id (dof + 1))))
    let rops := reactionNodes.map (fun _ => Op.reactionsCmd)
    let element_forces := m.elements.map (fun e => (e.id, (o.eleForce k2 e.id).getD []))
    let hinge_states := _compute_hinge_states m element_forces
    let deformed_shape := _compute_deformed_shape m node_displacements ndm 1
    let max_base_shear := (stF.capacity_curve.map (fun p => |p.base_shear|)).foldl max 0
    let max_roof_disp :=
      (stF.capacity_curve.map (fun p => |p.roof_displacement|)).foldl max 0
    (.ok { capacity_curve := stF.capacity_curve, hinge_states := hinge_states,
           max_base_shear := max_base_shear, max_roof_displacement := max_roof_disp,
           steps := stF.steps, node_displacements := node_displacements,
           element_forces := element_forces, reactions := reactions,
           deformed_shape := deformed_shape, discretization_map := dres.2.1,
           internal_node_coords := dres.2.2 },
     stF.trace ++ rops)

/-- `run_pushover_analysis` with the entry wipe and the `finally` wipe. -/
def run_pushover_analysis (o : Oracle) (m0 : Model) (target_displacement : ℚ)
    (num_steps : Nat := 100) (control_node : Option Nat := none)
    (control_dof : Nat := 1) (load_pattern : String := "linear") :
    Except String PushoverResult × List Op :=
  let body := poBody o m0 target_displacement num_steps control_node control_dof
    load_pattern
  (body.1, [Op.wipe] ++ body.2 ++ [Op.wipe])

/-- Failing input for claim C1: a single beam with both endpoints fully
restrained (fixity `[1,1,1]`), as in the repository's own
`TestDiscretizeFixityPropagation` tests. -/
def c1Model : Model :=
  { model_info := { ndm := some 2, ndf := some 3 }
    nodes := [{ id := 1, coords := [0, 0], fixity := [1, 1, 1] },
              { id := 2, coords := [100, 0], fixity := [1, 1, 1] }]
    elements := [{ id := 1, type := "elasticBeamColumn", nodes := [1, 2],
                   section_id := some 1, transform := some "Linear" }] }

/-- Failing input for claim C3: the floor beam of the repository's
`test_internal_nodes_added_to_diaphragm` test - both endpoints (master 1,
constrained 2) belong to the diaphragm grouping. -/
def c3Model : Model :=
  { model_info := { ndm := some 3, ndf := some 6 }
    nodes := [{ id := 1, coords := [0, 0, 180], fixity := [0, 0, 0, 0, 0, 0] },
              { id := 2, coords := [240, 0, 180], fixity := [0, 0, 0, 0, 0, 0] }]
    elements := [{ id := 1, type := "elasticBeamColumn", nodes := [1, 2],
                   section_id := some 1, transform := some "Linear" }]
    diaphragms := some [{ perp_direction := 3, master_node_id := 1,
                          constrained_node_ids := [2] }] }


/-- Input model for claim C6's counterexample and witness: one beam element
with an Elastic section (`Iz = 100`, depth `d = 10`, `E = 200`), giving an
approximate yield moment `My = (200/200) * (100 / 5) = 20`. -/
def c6Model : Model :=
  { model_info := { ndm := some 2, ndf := some 3 }
    nodes := [{ id := 1, coords := [0, 0], fixity := [1, 1, 1] },
              { id := 2, coords := [100, 0], fixity := [0, 0, 0] }]
    sections := [{ id := 1, type := "Elastic"
                   properties := { E := some 200, Iz := some 100, d := some 10 }
                   material_id := some 1 }]
    elements := [{ id := 1, type := "elasticBeamColumn", nodes := [1, 2],
                   section_id := some 1, transform := some "Linear" }] }

/-- Element forces putting the I-end of element 1 at demand/capacity ratio
0.5 (elastic). -/
def c6ForcesElastic : List (Nat × List ℚ) := [(1, [0, 0, 10, 0, 0, 0])]

/-- Element forces putting the I-end of element 1 at demand/capacity ratio
1.5 ("IO"). -/
def c6Forces : List (Nat × List ℚ) := [(1, [0, 0, 30, 0, 0, 0])]

/-- A concrete engine oracle for witnesses: every analyze call converges and
every query returns zero. -/
def oracle0 : Oracle :=
  { analyzeCode := fun _ => 0, stopIter := fun _ => false, eigenRaises := false
    eigenVals := fun _ => [], sqrt := fun _ => 0, pi := 0
    nodeDisp := fun _ _ _ => 0, nodeReaction := fun _ _ _ => 0
    nodeEigenvector := fun _ _ _ => 0, eleForce := fun _ _ => none
    eleBasicDisp := fun _ _ => none, eleBasicForce := fun _ _ => none
    tfpFirstSigRaises := false }

/-- A concrete all-zero displacement map over `c1Model`'s nodes, for claim
C7's witness. -/
def c7ZeroDisp : List (Nat × List ℚ) := [(1, [0, 0]), (2, [0, 0])]

/-- Recognizer for `ops.fix` events in a trace. -/
def isFixCmd : Op → Bool
  | Op.fixCmd _ _ => true
  | _ => false

/-- The number of elasticBeamColumn elements in a list. -/
def bcCount (l : List Element) : Nat :=
  l.countP (fun e => e.type == "elasticBeamColumn")

/-- Consistency invariant of the time-history recording loop: every recorded
series has exactly one entry per recorded time value. -/
def THInv (st : THState) : Prop :=
  (∀ p ∈ st.ndh, ∀ s ∈ p.2, s.length = st.time.length)
  ∧ (∀ p ∈ st.efh, ∀ s ∈ p.2, s.length = st.time.length)
  ∧ (∀ p ∈ st.brh, p.2.displacement_x.length = st.time.length
      ∧ p.2.displacement_y.length = st.time.length
      ∧ p.2.displacement_z.length = st.time.length
      ∧ p.2.force_x.length = st.time.length
      ∧ p.2.force_y.length = st.time.length
      ∧ p.2.axial_force.length = st.time.length)

/-- C1: the claim says every synthesized intermediate node's fixity equals
the per-DOF bitwise AND of the endpoint fixities.  The code instead always
assigns the all-zero fixity `[0] * ndf` (solver.py line 171): with both
endpoints fixed `[1,1,1]` the bitwise AND is `[1,1,1]`, but the one
synthesized node of `c1Model` gets `[0,0,0]`.  The repository's own test
suite (`TestDiscretizeFixityPropagation`) expects the AND, so this is a
defect of the code, not of the claim. -/
theorem C1_code_divergence :
    ((_discretize_elements c1Model 2).1.nodes.map Node.fixity
      = [[1, 1, 1], [1, 1, 1], [0, 0, 0]])
    ∧ List.zipWith min ([1, 1, 1] : List Nat) [1, 1, 1] ≠ [0, 0, 0] := by
  decide

/-- C3: the claim says intermediate nodes synthesized on a beam whose two
endpoints both belong to a diaphragm grouping are added to that grouping.
`_discretize_elements` in the source never touches the `diaphragms` key: on
`c3Model` with ratio 3 it synthesizes intermediate nodes 3 and 4 on the
fully in-diaphragm beam, yet the grouping's constrained list stays `[2]`.
The repository's own test (`TestDiscretizationDiaphragmAugmentation`)
expects the list to grow to three entries, so this is a defect of the code,
not of the claim. -/
theorem C3_code_divergence :
    ((_discretize_elements c3Model 3).1.diaphragms
      = some [{ perp_direction := 3, master_node_id := 1,
                constrained_node_ids := [2] }])
    ∧ ((_discretize_elements c3Model 3).2.1
      = [(1, { node_chain := [1, 3, 4, 2], sub_element_ids := [2, 3, 4] })])
    ∧ 3 ∉ [2] ∧ 4 ∉ [2] := by
  decide

theorem hingeRecordsFor_spec (e : Element) (lbl : String) (mom My : ℚ)
    (h : HingeState) (hmem : h ∈ hingeRecordsFor e lbl mom My) :
    (h.demand_capacity_ratio < 1 → h.performance_level = none ∧ h.rotation = 0)
    ∧ (1 ≤ h.demand_capacity_ratio → h.demand_capacity_ratio < 2 →
        h.performance_level = some "IO")
    ∧ (2 ≤ h.demand_capacity_ratio → h.demand_capacity_ratio < 3 →
        h.performance_level = some "LS")
    ∧ (3 ≤ h.demand_capacity_ratio → h.performance_level = some "CP")
    ∧ (h.performance_level ≠ none →
        h.rotation = (h.demand_capacity_ratio - 1) * 0.01) := by
  simp only [hingeRecordsFor] at hmem
  split_ifs at hmem
  all_goals first
    | exact absurd hmem (List.not_mem_nil _)
    | (rw [List.mem_singleton] at hmem; subst hmem
       refine ⟨fun hc => ?_, fun ha hb => ?_, fun ha hb => ?_, fun ha => ?_,
         fun hn => ?_⟩ <;> simp_all <;> linarith)

/-- C6 (amended): every hinge record produced by `_compute_hinge_states` is
classified exhaustively and without overlap by its demand/capacity ratio:
ratio < 1.0 is elastic and produces a record with null performance level and
zero plastic rotation (rather than no record, see `C6_counterexample`);
1.0 ≤ ratio < 2.0 is "IO"; 2.0 ≤ ratio < 3.0 is "LS"; ratio ≥ 3.0 is "CP";
and every non-elastic record's plastic rotation is (ratio - 1.0) * 0.01. -/
theorem C6_hinge_classification (m : Model) (ef : List (Nat × List ℚ))
    (h : HingeState) (hmem : h ∈ _compute_hinge_states m ef) :
    (h.demand_capacity_ratio < 1 → h.performance_level = none ∧ h.rotation = 0)
    ∧ (1 ≤ h.demand_capacity_ratio → h.demand_capacity_ratio < 2 →
        h.performance_level = some "IO")
    ∧ (2 ≤ h.demand_capacity_ratio → h.demand_capacity_ratio < 3 →
        h.performance_level = some "LS")
    ∧ (3 ≤ h.demand_capacity_ratio → h.performance_level = some "CP")
    ∧ (h.performance_level ≠ none →
        h.rotation = (h.demand_capacity_ratio - 1) * 0.01) := by
  unfold _compute_hinge_states at hmem
  rw [List.mem_flatMap] at hmem
  obtain ⟨e, _, hmem⟩ := hmem
  split at hmem
  · simp at hmem
  · split_ifs at hmem
    · simp at hmem
    · rw [List.mem_append] at hmem
      rcases hmem with hmem | hmem <;> exact hingeRecordsFor_spec _ _ _ _ _ hmem
    · rw [List.mem_append] at hmem
      rcases hmem with hmem | hmem <;> exact hingeRecordsFor_spec _ _ _ _ _ hmem
    · simp at hmem

theorem c6_elastic_eval : _compute_hinge_states c6Model c6ForcesElastic =
    [{ element_id := 1, endLabel := "I", rotation := 0, moment := 10,
       performance_level := none, demand_capacity_ratio := 1/2 }] := by
  norm_num [_compute_hinge_states, c6Model, c6ForcesElastic, yieldMomentOf,
    _find_section, _get_material_E, hingeRecordsFor, List.lookup]
  simp

/-- C6 counterexample: the claim as stated says an elastic ratio (< 1.0)
produces no record.  On `c6Model` with an I-end moment at half the yield
moment, `_compute_hinge_states` does produce a record (with performance
level `none`), matching the repository's own test
`test_elastic_forces_produce_no_hinges`, which asserts the entries exist
with a null level. -/
theorem C6_counterexample :
    ∃ h ∈ _compute_hinge_states c6Model c6ForcesElastic,
      h.demand_capacity_ratio < 1 ∧ h.performance_level = none := by
  rw [c6_elastic_eval]
  exact ⟨_, List.mem_singleton_self _, by norm_num, rfl⟩

theorem c6_io_eval : _compute_hinge_states c6Model c6Forces =
    [{ element_id := 1, endLabel := "I", rotation := 1/200, moment := 30,
       performance_level := some "IO", demand_capacity_ratio := 3/2 }] := by
  norm_num [_compute_hinge_states, c6Model, c6Forces, yieldMomentOf,
    _find_section, _get_material_E, hingeRecordsFor, List.lookup]
  simp

theorem map_getD_range (l : List ℚ) :
    (List.range l.length).map (fun i => l.getD i 0) = l := by
  induction l with
  | nil => rfl
  | cons a t ih =>
    rw [List.length_cons, List.range_succ_eq_map, List.map_cons, List.map_map]
    simp only [List.getD_cons_zero, Function.comp_def, List.getD_cons_succ]
    rw [ih]

theorem getD_zero_of_all_zero (l : List ℚ) (hl : ∀ x ∈ l, x = 0) (i : Nat) :
    l.getD i 0 = 0 := by
  induction l generalizing i with
  | nil => simp
  | cons a t ih =>
    cases i with
    | zero => simpa using hl a (by simp)
    | succ j =>
      rw [List.getD_cons_succ]
      exact ih (fun x hx => hl x (List.mem_cons_of_mem _ hx)) j

theorem lookup_val_mem {l : List (Nat × List ℚ)} {a : Nat} {b : List ℚ}
    (h : l.lookup a = some b) : ∃ p ∈ l, p.2 = b := by
  induction l with
  | nil => simp [List.lookup] at h
  | cons hd tl ih =>
    obtain ⟨k, v⟩ := hd
    rw [List.lookup] at h
    split at h
    · exact ⟨(k, v), by simp, Option.some.inj h⟩
    · obtain ⟨p, hp, hb⟩ := ih h
      exact ⟨p, List.mem_cons_of_mem _ hp, hb⟩

/-- C7: `_compute_deformed_shape` returns, per node and in node order,
original coordinates plus scale times displacement componentwise, clipped to
the minimum of the spatial-dimension count, the coordinate length and the
displacement length (the formula is literally linear in the scale factor);
and it is the identity on node coordinates whenever every displacement is
zero and no clipping occurs. -/
theorem C7_deformed_shape (m : Model) (nd : List (Nat × List ℚ)) (ndm : Nat) (s : ℚ) :
    List.Forall₂ (fun (n : Node) (p : Nat × List ℚ) =>
      p.1 = n.id ∧
      p.2 = (List.range (min ndm (min n.coords.length
              ((nd.lookup n.id).getD (List.replicate ndm 0)).length))).map
            (fun i => n.coords.getD i 0 +
              s * ((nd.lookup n.id).getD (List.replicate ndm 0)).getD i 0))
      m.nodes (_compute_deformed_shape m nd ndm s)
    ∧ ((∀ p ∈ nd, ∀ x ∈ p.2, x = 0) →
       (∀ n ∈ m.nodes, n.coords.length ≤ ndm ∧
          n.coords.length ≤ ((nd.lookup n.id).getD (List.replicate ndm 0)).length) →
       _compute_deformed_shape m nd ndm s = m.nodes.map (fun n => (n.id, n.coords))) := by
  constructor
  · unfold _compute_deformed_shape
    rw [List.forall₂_map_right_iff, List.forall₂_same]
    exact fun n _ => ⟨rfl, rfl⟩
  · intro hz hcov
    unfold _compute_deformed_shape
    apply List.map_congr_left
    intro n hn
    have hdz : ∀ x ∈ (nd.lookup n.id).getD (List.replicate ndm 0), x = (0 : ℚ) := by
      cases hl : nd.lookup n.id with
      | none =>
        intro x hx
        rw [Option.getD_none] at hx
        exact List.eq_of_mem_replicate hx
      | some d =>
        obtain ⟨p, hp, hb⟩ := lookup_val_mem hl
        simp only [hl, Option.getD_some]
        exact fun x hx => hz p hp x (hb ▸ hx)
    obtain ⟨h1, h2⟩ := hcov n hn
    have hmin : min ndm (min n.coords.length
        ((nd.lookup n.id).getD (List.replicate ndm 0)).length) = n.coords.length := by
      omega
    rw [hmin]
    have hp : ∀ i, n.coords.getD i 0 +
        s * ((nd.lookup n.id).getD (List.replicate ndm 0)).getD i 0
        = n.coords.getD i 0 := by
      intro i
      rw [getD_zero_of_all_zero _ hdz i, mul_zero, add_zero]
    rw [List.map_congr_left (fun i _ => hp i), map_getD_range]

/-- C8: `generate_fixed_base_variant` never mutates its input (the
embedding is pure), returns a model with zero bearings, sets full fixity
(all DOFs restrained) on exactly the nodes that were the second (top) node
of some bearing, and leaves every other node's id, coordinates and fixity
unchanged. -/
theorem C8_fixed_base_variant (m : Model) :
    (generate_fixed_base_variant m).bearings = []
    ∧ List.Forall₂ (fun (a b : Node) =>
        b.id = a.id ∧ b.coords = a.coords ∧
        b.fixity = (if a.id ∈ m.bearings.map (fun br => br.nodes.getD 1 0)
                    then List.replicate m.ndf 1 else a.fixity))
        m.nodes (generate_fixed_base_variant m).nodes := by
  refine ⟨rfl, ?_⟩
  unfold generate_fixed_base_variant
  rw [List.forall₂_map_right_iff, List.forall₂_same]
  intro n _
  by_cases hmem : n.id ∈ m.bearings.map (fun br => br.nodes.getD 1 0)
  · simp only [if_pos hmem]; exact ⟨trivial, trivial, trivial⟩
  · simp only [if_neg hmem]; exact ⟨trivial, trivial, trivial⟩

/-- C9: `apply_lambda_factor` multiplies every bearing friction surface's
mu_slow and mu_fast by the factor, leaves trans_rate and all other bearing
parameters (nodes, radii, displacement capacities, weight, uy, kvt, min_fv,
tol, vertical stiffness) and every other part of the model unchanged, and
applying factor 1.0 is the identity on the whole model.  The embedding is
pure, which models the no-mutation contract. -/
theorem C9_lambda_factor (m : Model) (factor : ℚ) :
    ((apply_lambda_factor m factor).model_info = m.model_info
     ∧ (apply_lambda_factor m factor).nodes = m.nodes
     ∧ (apply_lambda_factor m factor).materials = m.materials
     ∧ (apply_lambda_factor m factor).sections = m.sections
     ∧ (apply_lambda_factor m factor).elements = m.elements
     ∧ (apply_lambda_factor m factor).loads = m.loads
     ∧ (apply_lambda_factor m factor).diaphragms = m.diaphragms)
    ∧ List.Forall₂ (fun (a b : Bearing) =>
        b.id = a.id ∧ b.nodes = a.nodes ∧ b.radii = a.radii ∧
        b.disp_capacities = a.disp_capacities ∧ b.weight = a.weight ∧
        b.vert_stiffness = a.vert_stiffness ∧ b.uy = a.uy ∧ b.kvt = a.kvt ∧
        b.min_fv = a.min_fv ∧ b.tol = a.tol ∧
        List.Forall₂ (fun (fa fb : FrictionSurface) =>
          fb.mu_slow = fa.mu_slow * factor ∧ fb.mu_fast = fa.mu_fast * factor ∧
          fb.trans_rate = fa.trans_rate)
          a.friction_models b.friction_models)
        m.bearings (apply_lambda_factor m factor).bearings
    ∧ apply_lambda_factor m 1 = m := by
  refine ⟨⟨rfl, rfl, rfl, rfl, rfl, rfl, rfl⟩, ?_, ?_⟩
  · unfold apply_lambda_factor
    rw [List.forall₂_map_right_iff, List.forall₂_same]
    intro b _
    refine ⟨rfl, rfl, rfl, rfl, rfl, rfl, rfl, rfl, rfl, rfl, ?_⟩
    rw [List.forall₂_map_right_iff, List.forall₂_same]
    exact fun fm _ => ⟨rfl, rfl, rfl⟩
  · unfold apply_lambda_factor
    have hfm : ∀ fm : FrictionSurface,
        ({ fm with mu_slow := fm.mu_slow * 1, mu_fast := fm.mu_fast * 1 }
          : FrictionSurface) = fm := by
      intro fm; cases fm; simp
    have hb : ∀ b : Bearing,
        ({ b with friction_models := b.friction_models.map (fun fm =>
            { fm with mu_slow := fm.mu_slow * 1, mu_fast := fm.mu_fast * 1 }) }
          : Bearing) = b := by
      intro b
      rw [List.map_congr_left (fun fm _ => hfm fm), List.map_id']
    rw [List.map_congr_left (fun b _ => hb b), List.map_id']

theorem wrapped_head_last (t : List Op) :
    (([Op.wipe] ++ t ++ [Op.wipe]).head? = some Op.wipe)
    ∧ (([Op.wipe] ++ t ++ [Op.wipe]).getLast? = some Op.wipe) :=
  ⟨rfl, List.getLast?_concat _⟩

/-- C4: every public analysis entry point - static, modal, time-history and
pushover - emits `ops.wipe` as its very first engine call and as its very
last engine call, for every oracle (hence on every exit path: normal return
or raised error, e.g. static non-convergence, a modal eigen failure, or the
pushover no-free-node error). -/
theorem C4_domain_reset (o : Oracle) (m : Model) (nm : Nat) (gm : List ℚ)
    (dt : ℚ) (ns : Nat) (dir : Int) (td : ℚ) (pns : Nat) (cn : Option Nat)
    (cd : Nat) (lp : String) :
    ((run_static_analysis o m).2.head? = some Op.wipe
      ∧ (run_static_analysis o m).2.getLast? = some Op.wipe)
    ∧ ((run_modal_analysis o m nm).2.head? = some Op.wipe
      ∧ (run_modal_analysis o m nm).2.getLast? = some Op.wipe)
    ∧ ((run_time_history o m gm dt ns dir).2.head? = some Op.wipe
      ∧ (run_time_history o m gm dt ns dir).2.getLast? = some Op.wipe)
    ∧ ((run_pushover_analysis o m td pns cn cd lp).2.head? = some Op.wipe
      ∧ (run_pushover_analysis o m td pns cn cd lp).2.getLast? = some Op.wipe) :=
  ⟨wrapped_head_last _, wrapped_head_last _, wrapped_head_last _, wrapped_head_last _⟩

theorem padFixityValue_append (l : List Nat) :
    padFixityValue (l ++ [padFixityValue l]) = padFixityValue l := by
  unfold padFixityValue
  by_cases h : l ≠ [] ∧ l.all (fun f => f == 1)
  · rw [if_pos h]
    rw [if_pos]
    exact ⟨by simp, by rw [List.all_append]; simp [h.2]⟩
  · rw [if_neg h]
    rw [if_neg]
    intro hc
    rcases hc with ⟨-, hall⟩
    rw [List.all_append] at hall
    simp at hall

theorem padFixity_fuel (fuel : Nat) : ∀ (fixity : List Nat) (ndf : Nat),
    ndf - fixity.length ≤ fuel →
    padFixity fixity ndf
      = fixity ++ List.replicate (ndf - fixity.length) (padFixityValue fixity) := by
  induction fuel with
  | zero =>
    intro fixity ndf hf
    rw [padFixity, if_neg (by omega), show ndf - fixity.length = 0 by omega,
        List.replicate_zero, List.append_nil]
  | succ fu ih =>
    intro fixity ndf hf
    rw [padFixity]
    by_cases hlt : fixity.length < ndf
    · rw [if_pos hlt]
      rw [ih (fixity ++ [padFixityValue fixity]) ndf (by simp; omega)]
      rw [padFixityValue_append, List.append_assoc]
      congr 1
      rw [List.length_append, List.length_singleton]
      rw [show ndf - fixity.length = (ndf - (fixity.length + 1)) + 1 by omega]
      rw [List.replicate_succ]
      rfl
    · rw [if_neg hlt, show ndf - fixity.length = 0 by omega,
          List.replicate_zero, List.append_nil]
theorem filter_isFix_flatMap {α : Type} (f : α → List Op) (l : List α)
    (hf : ∀ a ∈ l, (f a).filter isFixCmd = []) :
    (l.flatMap f).filter isFixCmd = [] := by
  induction l with
  | nil => rfl
  | cons a t ih =>
    rw [List.flatMap_cons, List.filter_append, hf a (by simp),
      ih (fun x hx => hf x (List.mem_cons_of_mem _ hx))]
    rfl

theorem filter_isFix_materials (ms : List Material) :
    (_define_materials ms).filter isFixCmd = [] := by
  unfold _define_materials
  apply filter_isFix_flatMap
  intro mat _
  split_ifs <;> rfl

theorem filter_isFix_sections (secs : List Section) (m : Model) (ndm : Nat) :
    (_define_sections secs m ndm).filter isFixCmd = [] := by
  unfold _define_sections
  apply filter_isFix_flatMap
  intro sec _
  split_ifs <;> rfl

theorem filter_isFix_2d (m : Model) :
    (_build_2d_elements m).filter isFixCmd = [] := by
  unfold _build_2d_elements
  rw [List.filter_append]
  have h1 : (transfTags2d m.elements).2.filter isFixCmd = [] := by
    rw [List.filter_eq_nil_iff]
    intro op hop
    unfold transfTags2d at hop
    rw [List.mem_map] at hop
    obtain ⟨p, -, hp⟩ := hop
    subst hp
    simp [isFixCmd]
  rw [h1, List.nil_append]
  apply filter_isFix_flatMap
  intro e _
  dsimp only
  split_ifs <;> rfl

theorem filter_isFix_beamColumn3d (o : Oracle) (m : Model)
    (cd : List (Nat × List ℚ)) (z : Bool) (tt : Nat) (e : Element) :
    (beamColumn3dOps o m cd z tt e).filter isFixCmd = [] := rfl

theorem filter_isFix_3d_fold (o : Oracle) (m : Model) (cd : List (Nat × List ℚ))
    (z : Bool) (l : List Element) : ∀ (acc : List Op × Nat),
    ((l.foldl (elem3dStep o m cd z) acc).1).filter isFixCmd
      = acc.1.filter isFixCmd := by
  induction l with
  | nil => intro acc; rfl
  | cons e t ih =>
    intro acc
    rw [List.foldl_cons, ih]
    unfold elem3dStep
    split_ifs <;>
      simp [List.filter_append, filter_isFix_beamColumn3d, isFixCmd]

theorem filter_isFix_3d (o : Oracle) (m : Model) (cd : List (Nat × List ℚ)) :
    (_build_3d_elements o m cd).filter isFixCmd = [] := by
  unfold _build_3d_elements
  rw [filter_isFix_3d_fold]
  rfl

theorem filter_isFix_bearings (o : Oracle) (bs : List Bearing) (ndm : Nat) :
    (_define_bearings o bs ndm).filter isFixCmd = [] := by
  unfold _define_bearings
  apply filter_isFix_flatMap
  intro b _
  unfold bearingOps1
  rw [List.filter_eq_nil_iff]
  intro op hop
  rw [List.mem_append, List.mem_append] at hop
  rcases hop with (hop | hop) | hop
  · rw [List.mem_map] at hop
    obtain ⟨j, -, hj⟩ := hop
    subst hj
    simp [isFixCmd]
  · simp only [List.mem_cons, List.not_mem_nil, or_false] at hop
    rcases hop with h | h | h | h <;> subst h <;> simp [isFixCmd]
  · rw [List.mem_singleton] at hop
    subst hop
    split_ifs <;> simp [isFixCmd]

theorem filter_fix_nodeOps (ndm ndf : Nat) (nodes : List Node) :
    (nodes.flatMap (nodeOps ndm ndf)).filter isFixCmd
      = nodes.filterMap (fun n =>
          if padFixity n.fixity ndf ≠ [] ∧ (padFixity n.fixity ndf).any (fun f => f == 1)
          then some (Op.fixCmd n.id ((padFixity n.fixity ndf).take ndf)) else none) := by
  induction nodes with
  | nil => rfl
  | cons n t ih =>
    rw [List.flatMap_cons, List.filter_append, ih, List.filterMap_cons]
    by_cases hc : padFixity n.fixity ndf ≠ []
        ∧ (padFixity n.fixity ndf).any (fun f => f == 1)
    · simp only [nodeOps, if_pos hc]
      rfl
    · simp only [nodeOps, if_neg hc]
      rfl

theorem build_model_filter_fix (o : Oracle) (m : Model) :
    (build_model o m).filter isFixCmd
      = m.nodes.filterMap (fun n =>
          if padFixity n.fixity m.ndf ≠ []
              ∧ (padFixity n.fixity m.ndf).any (fun f => f == 1)
          then some (Op.fixCmd n.id ((padFixity n.fixity m.ndf).take m.ndf))
          else none) := by
  unfold build_model
  rw [List.filter_append, List.filter_append, List.filter_append,
      List.filter_append, List.filter_append]
  rw [filter_isFix_materials, filter_isFix_sections, filter_isFix_bearings]
  have h3 : ((if 3 ≤ m.ndm then _build_3d_elements o m (nodeCoordsDict m.ndm m.nodes)
      else _build_2d_elements m)).filter isFixCmd = [] := by
    split_ifs
    · exact filter_isFix_3d o m _
    · exact filter_isFix_2d m
  rw [h3]
  rw [show ([Op.modelCmd m.ndm m.ndf].filter isFixCmd) = [] from rfl]
  rw [filter_fix_nodeOps]
  simp

/-- C10: `build_model`'s fixity padding loop extends a short fixity list to
`ndf` entries with 1 when the existing list is non-empty and all ones and
with 0 otherwise, and the `ops.fix` calls emitted by `build_model` are
exactly those for nodes whose padded fixity vector is non-empty and contains
a restrained DOF (passed truncated to `ndf`). -/
theorem C10_fixity_padding (fixity : List Nat) (o : Oracle) (m : Model) :
    (∀ ndf : Nat, padFixity fixity ndf
      = fixity ++ List.replicate (ndf - fixity.length)
          (if fixity ≠ [] ∧ fixity.all (fun f => f == 1) then 1 else 0))
    ∧ ((build_model o m).filter isFixCmd
       = m.nodes.filterMap (fun n =>
          if padFixity n.fixity m.ndf ≠ []
              ∧ (padFixity n.fixity m.ndf).any (fun f => f == 1)
          then some (Op.fixCmd n.id ((padFixity n.fixity m.ndf).take m.ndf))
          else none)) :=
  ⟨fun ndf => padFixity_fuel (ndf - fixity.length) fixity ndf le_rfl,
   build_model_filter_fix o m⟩

/-- C6 witness: the amended classification applied to a concrete "IO"
record produced by `_compute_hinge_states`. -/
theorem C6_witness :
    (({ element_id := 1, endLabel := "I", rotation := 1/200, moment := 30,
        performance_level := some "IO", demand_capacity_ratio := 3/2 } : HingeState)
      ∈ _compute_hinge_states c6Model c6Forces)
    ∧ ((1 : ℚ) ≤ (3 : ℚ)/2 → (3 : ℚ)/2 < 2 →
        (({ element_id := 1, endLabel := "I", rotation := 1/200, moment := 30,
            performance_level := some "IO", demand_capacity_ratio := 3/2 }
          : HingeState)).performance_level = some "IO") :=
  have hm : ({ element_id := 1, endLabel := "I", rotation := 1/200, moment := 30,
               performance_level := some "IO", demand_capacity_ratio := 3/2 }
        : HingeState)
      ∈ _compute_hinge_states c6Model c6Forces := by
    rw [c6_io_eval]; exact List.mem_singleton_self _
  ⟨hm, (C6_hinge_classification c6Model c6Forces _ hm).2.1⟩

/-- C7 witness: the identity case evaluated on a concrete model with an
all-zero displacement map. -/
theorem C7_witness :
    (∀ p ∈ c7ZeroDisp, ∀ x ∈ p.2, x = 0)
    ∧ (∀ n ∈ c1Model.nodes, n.coords.length ≤ 2 ∧
        n.coords.length ≤ ((c7ZeroDisp.lookup n.id).getD (List.replicate 2 0)).length)
    ∧ (_compute_deformed_shape c1Model c7ZeroDisp 2 5
        = c1Model.nodes.map (fun n => (n.id, n.coords))) :=
  ⟨by decide, by decide,
   (C7_deformed_shape c1Model c7ZeroDisp 2 5).2 (by decide) (by decide)⟩
theorem discStep_nonbc (ndf ratio : Nat) (st : DiscState) (e : Element)
    (h : e.type ≠ "elasticBeamColumn") :
    discStep ndf ratio st e = { st with newElems := st.newElems ++ [e] } := by
  simp only [discStep, if_pos h]

theorem discStep_bc_spec (ndf ratio : Nat) (st : DiscState) (e : Element)
    (h : e.type = "elasticBeamColumn") :
    (discStep ndf ratio st e).newNodes.length = st.newNodes.length + (ratio - 1)
    ∧ (∃ subs : List Element, (discStep ndf ratio st e).newElems = st.newElems ++ subs
        ∧ subs.length = ratio
        ∧ ∀ x ∈ subs, x.type = "elasticBeamColumn"
            ∧ x.section_id = some (e.section_id.getD 0)
            ∧ x.transform = some (e.transform.getD "Linear"))
    ∧ (∃ entry : DiscEntry, (discStep ndf ratio st e).dmap = st.dmap ++ [(e.id, entry)]
        ∧ entry.node_chain.length = 1 + (ratio - 1) + 1
        ∧ entry.sub_element_ids.length = ratio) := by
  simp only [discStep, if_neg (not_not_intro h)]
  refine ⟨by simp, ⟨_, rfl, by simp, ?_⟩, ⟨_, rfl, by simp; omega, by simp⟩⟩
  intro x hx
  rw [List.mem_map] at hx
  obtain ⟨k, -, hk⟩ := hx
  subst hk
  exact ⟨rfl, rfl, rfl⟩

theorem bcCount_cons_bc {e : Element} (t : List Element)
    (he : e.type = "elasticBeamColumn") : bcCount (e :: t) = bcCount t + 1 := by
  simp [bcCount, List.countP_cons, he]

theorem bcCount_cons_nonbc {e : Element} (t : List Element)
    (he : e.type ≠ "elasticBeamColumn") : bcCount (e :: t) = bcCount t := by
  simp [bcCount, List.countP_cons, he]

theorem discFold_newNodes (ndf ratio : Nat) (l : List Element) :
    ∀ st : DiscState, ((l.foldl (discStep ndf ratio) st).newNodes).length
      = st.newNodes.length + (ratio - 1) * bcCount l := by
  induction l with
  | nil => intro st; simp [bcCount]
  | cons e t ih =>
    intro st
    rw [List.foldl_cons, ih]
    by_cases he : e.type = "elasticBeamColumn"
    · obtain ⟨hn, -, -⟩ := discStep_bc_spec ndf ratio st e he
      rw [hn, bcCount_cons_bc t he, Nat.mul_add, Nat.mul_one]
      omega
    · rw [discStep_nonbc ndf ratio st e he, bcCount_cons_nonbc t he]

theorem discFold_newElems_len (ndf ratio : Nat) (l : List Element) :
    ∀ st : DiscState, ((l.foldl (discStep ndf ratio) st).newElems).length
      = st.newElems.length
        + l.countP (fun e => !(e.type == "elasticBeamColumn"))
        + ratio * bcCount l := by
  induction l with
  | nil => intro st; simp [bcCount]
  | cons e t ih =>
    intro st
    rw [List.foldl_cons, ih]
    by_cases he : e.type = "elasticBeamColumn"
    · obtain ⟨-, ⟨subs, hsubs, hlen, -⟩, -⟩ := discStep_bc_spec ndf ratio st e he
      rw [hsubs, bcCount_cons_bc t he, List.countP_cons, List.length_append, hlen,
        Nat.mul_add, Nat.mul_one]
      simp [he]
      omega
    · rw [discStep_nonbc ndf ratio st e he, bcCount_cons_nonbc t he, List.countP_cons]
      simp [he]
      omega

theorem discFold_filter (ndf ratio : Nat) (l : List Element) :
    ∀ st : DiscState,
    ((l.foldl (discStep ndf ratio) st).newElems).filter
        (fun e => !(e.type == "elasticBeamColumn"))
      = st.newElems.filter (fun e => !(e.type == "elasticBeamColumn"))
        ++ l.filter (fun e => !(e.type == "elasticBeamColumn")) := by
  induction l with
  | nil => intro st; simp
  | cons e t ih =>
    intro st
    rw [List.foldl_cons, ih, List.filter_cons]
    by_cases he : e.type = "elasticBeamColumn"
    · obtain ⟨-, ⟨subs, hsubs, -, hall⟩, -⟩ := discStep_bc_spec ndf ratio st e he
      have hnil : List.filter (fun x => !(x.type == "elasticBeamColumn")) subs = [] :=
        List.filter_eq_nil_iff.mpr (fun x hx => by simp [(hall x hx).1])
      rw [hsubs, List.filter_append, hnil]
      simp [he]
    · rw [discStep_nonbc ndf ratio st e he]
      simp only [List.filter_append]
      rw [show List.filter (fun x => !(x.type == "elasticBeamColumn")) [e] = [e] by
        simp [he]]
      simp [he, List.append_assoc]

theorem discFold_dmap (ndf ratio : Nat) (l : List Element) :
    ∀ st : DiscState,
    ((l.foldl (discStep ndf ratio) st).dmap).length = st.dmap.length + bcCount l
    ∧ ∀ p ∈ (l.foldl (discStep ndf ratio) st).dmap, p ∈ st.dmap
        ∨ (p.2.node_chain.length = 1 + (ratio - 1) + 1
           ∧ p.2.sub_element_ids.length = ratio
           ∧ ∃ e ∈ l, e.type = "elasticBeamColumn" ∧ p.1 = e.id) := by
  induction l with
  | nil => intro st; exact ⟨by simp [bcCount], fun p hp => Or.inl hp⟩
  | cons e t ih =>
    intro st
    rw [List.foldl_cons]
    obtain ⟨ihlen, ihmem⟩ := ih (discStep ndf ratio st e)
    constructor
    · rw [ihlen]
      by_cases he : e.type = "elasticBeamColumn"
      · obtain ⟨-, -, ⟨entry, hd, -, -⟩⟩ := discStep_bc_spec ndf ratio st e he
        rw [hd, bcCount_cons_bc t he, List.length_append]
        simp
        omega
      · rw [discStep_nonbc ndf ratio st e he, bcCount_cons_nonbc t he]
    · intro p hp
      rcases ihmem p hp with hp2 | ⟨hc, hs, e2, he2, ht2, hi2⟩
      · by_cases he : e.type = "elasticBeamColumn"
        · obtain ⟨-, -, ⟨entry, hd, hclen, hslen⟩⟩ := discStep_bc_spec ndf ratio st e he
          rw [hd, List.mem_append, List.mem_singleton] at hp2
          rcases hp2 with hp2 | hp2
          · exact Or.inl hp2
          · subst hp2
            exact Or.inr ⟨hclen, hslen, e, by simp, he, rfl⟩
        · rw [discStep_nonbc ndf ratio st e he] at hp2
          exact Or.inl hp2
      · exact Or.inr ⟨hc, hs, e2, List.mem_cons_of_mem _ he2, ht2, hi2⟩

theorem discFold_mem (ndf ratio : Nat) (l : List Element) :
    ∀ st : DiscState, ∀ el ∈ (l.foldl (discStep ndf ratio) st).newElems,
      el ∈ st.newElems
      ∨ (el ∈ l ∧ el.type ≠ "elasticBeamColumn")
      ∨ ∃ e ∈ l, e.type = "elasticBeamColumn" ∧ el.type = "elasticBeamColumn"
          ∧ el.section_id = some (e.section_id.getD 0)
          ∧ el.transform = some (e.transform.getD "Linear") := by
  induction l with
  | nil => intro st el hel; exact Or.inl hel
  | cons e t ih =>
    intro st el hel
    rw [List.foldl_cons] at hel
    rcases ih (discStep ndf ratio st e) el hel with h1 | ⟨h2a, h2b⟩ | ⟨e2, he2, h3⟩
    · by_cases he : e.type = "elasticBeamColumn"
      · obtain ⟨-, ⟨subs, hsubs, -, hall⟩, -⟩ := discStep_bc_spec ndf ratio st e he
        rw [hsubs, List.mem_append] at h1
        rcases h1 with h1 | h1
        · exact Or.inl h1
        · obtain ⟨hx1, hx2, hx3⟩ := hall el h1
          exact Or.inr (Or.inr ⟨e, by simp, he, hx1, hx2, hx3⟩)
      · rw [discStep_nonbc ndf ratio st e he, List.mem_append, List.mem_singleton] at h1
        rcases h1 with h1 | h1
        · exact Or.inl h1
        · subst h1
          exact Or.inr (Or.inl ⟨by simp, he⟩)
    · exact Or.inr (Or.inl ⟨List.mem_cons_of_mem _ h2a, h2b⟩)
    · exact Or.inr (Or.inr ⟨e2, List.mem_cons_of_mem _ he2, h3⟩)

theorem discStep_bc_sub_ids (ndf ratio : Nat) (st : DiscState) (e : Element)
    (h : e.type = "elasticBeamColumn") :
    ∃ subs : List Element, ∃ entry : DiscEntry,
      (discStep ndf ratio st e).newElems = st.newElems ++ subs
      ∧ (discStep ndf ratio st e).dmap = st.dmap ++ [(e.id, entry)]
      ∧ subs.map Element.id = entry.sub_element_ids
      ∧ subs.length = ratio
      ∧ ∀ el ∈ subs, el.type = "elasticBeamColumn"
          ∧ el.section_id = some (e.section_id.getD 0)
          ∧ el.transform = some (e.transform.getD "Linear") := by
  simp only [discStep, if_neg (not_not_intro h)]
  refine ⟨_, _, rfl, rfl, ?_, by simp, ?_⟩
  · rw [List.map_map,
      show List.range' st.nextElem ratio = (List.range ratio).map (st.nextElem + ·) from
        List.range'_eq_map_range st.nextElem ratio]
    rfl
  · intro x hx
    rw [List.mem_map] at hx
    obtain ⟨k, -, hk⟩ := hx
    subst hk
    exact ⟨rfl, rfl, rfl⟩

theorem discFold_newElems_ext (ndf ratio : Nat) (l : List Element) :
    ∀ st : DiscState, ∃ rest : List Element,
      (l.foldl (discStep ndf ratio) st).newElems = st.newElems ++ rest := by
  induction l with
  | nil => intro st; exact ⟨[], by simp⟩
  | cons e t ih =>
    intro st
    rw [List.foldl_cons]
    obtain ⟨rest, hrest⟩ := ih (discStep ndf ratio st e)
    by_cases he : e.type = "elasticBeamColumn"
    · obtain ⟨-, ⟨subs, hsubs, -, -⟩, -⟩ := discStep_bc_spec ndf ratio st e he
      exact ⟨subs ++ rest, by rw [hrest, hsubs, List.append_assoc]⟩
    · rw [discStep_nonbc ndf ratio st e he] at hrest
      refine ⟨[e] ++ rest, ?_⟩
      rw [discStep_nonbc ndf ratio st e he, hrest]
      exact List.append_assoc _ _ _

theorem discFold_pairing (ndf ratio : Nat) (l : List Element) :
    ∀ st : DiscState, ∃ dnew : List (Nat × DiscEntry),
      (l.foldl (discStep ndf ratio) st).dmap = st.dmap ++ dnew
      ∧ List.Forall₂ (fun (e : Element) (p : Nat × DiscEntry) =>
          p.1 = e.id
          ∧ ∃ subs : List Element,
              subs.map Element.id = p.2.sub_element_ids
              ∧ subs.length = ratio
              ∧ subs <:+: (l.foldl (discStep ndf ratio) st).newElems
              ∧ ∀ el ∈ subs, el.type = "elasticBeamColumn"
                  ∧ el.section_id = some (e.section_id.getD 0)
                  ∧ el.transform = some (e.transform.getD "Linear"))
        (l.filter (fun e => e.type == "elasticBeamColumn")) dnew := by
  induction l with
  | nil => intro st; exact ⟨[], by simp, List.Forall₂.nil⟩
  | cons e t ih =>
    intro st
    rw [List.foldl_cons]
    obtain ⟨dnew, hd, hf⟩ := ih (discStep ndf ratio st e)
    by_cases he : e.type = "elasticBeamColumn"
    · obtain ⟨subs, entry, hsubs, hdm, hids, hlen, hall⟩ :=
        discStep_bc_sub_ids ndf ratio st e he
      refine ⟨(e.id, entry) :: dnew, ?_, ?_⟩
      · rw [hd, hdm, List.append_assoc]
        rfl
      · rw [List.filter_cons_of_pos (by simp [he])]
        refine List.Forall₂.cons ⟨rfl, subs, hids, hlen, ?_, hall⟩ hf
        obtain ⟨rest, hrest⟩ := discFold_newElems_ext ndf ratio t (discStep ndf ratio st e)
        exact ⟨st.newElems, rest, by rw [hrest, hsubs, List.append_assoc]⟩
    · rw [discStep_nonbc ndf ratio st e he] at hd hf ⊢
      refine ⟨dnew, hd, ?_⟩
      rw [List.filter_cons_of_neg (by simp [he])]
      exact hf

/-- C2: for every model and subdivision ratio R ≥ 2, `_discretize_elements`
adds exactly (R-1) nodes and R sub-elements per elastic beam-column element
(the discretization map records an (R+1)-node chain and R sub-element ids per
original element), keeps the original nodes as a prefix, leaves every
non-beam-column element unchanged (as lists, in order), and gives every
replacement sub-element the original element's section id and transform.
The final conjunct pairs the beam-column originals, in order, with the
discretization-map entries: the i-th entry carries the i-th original's id,
and its recorded sub-element ids are exactly the ids of a contiguous block of
R sub-elements of the output that all carry THAT original's section id and
transform — so each original is replaced by its own block, not merely by
sub-elements resembling some beam-column.  The embedding is pure, which
models the deep-copy/no-mutation contract. -/
theorem C2_discretizer_cardinality (m : Model) (R : Nat) (hR : 2 ≤ R) :
    ((_discretize_elements m R).1.nodes.length
        = m.nodes.length + (R - 1) * bcCount m.elements)
    ∧ ((_discretize_elements m R).1.nodes.take m.nodes.length = m.nodes)
    ∧ ((_discretize_elements m R).1.elements.length
        = m.elements.countP (fun e => !(e.type == "elasticBeamColumn"))
          + R * bcCount m.elements)
    ∧ ((_discretize_elements m R).2.1.length = bcCount m.elements)
    ∧ (∀ p ∈ (_discretize_elements m R).2.1,
        p.2.node_chain.length = R + 1 ∧ p.2.sub_element_ids.length = R
        ∧ ∃ e ∈ m.elements, e.type = "elasticBeamColumn" ∧ p.1 = e.id)
    ∧ ((_discretize_elements m R).1.elements.filter
          (fun e => !(e.type == "elasticBeamColumn"))
        = m.elements.filter (fun e => !(e.type == "elasticBeamColumn")))
    ∧ (∀ el ∈ (_discretize_elements m R).1.elements,
        (el ∈ m.elements ∧ el.type ≠ "elasticBeamColumn")
        ∨ ∃ e ∈ m.elements, e.type = "elasticBeamColumn"
            ∧ el.type = "elasticBeamColumn"
            ∧ el.section_id = some (e.section_id.getD 0)
            ∧ el.transform = some (e.transform.getD "Linear"))
    ∧ List.Forall₂ (fun (e : Element) (p : Nat × DiscEntry) =>
        p.1 = e.id
        ∧ ∃ subs : List Element,
            subs.map Element.id = p.2.sub_element_ids
            ∧ subs.length = R
            ∧ subs <:+: (_discretize_elements m R).1.elements
            ∧ ∀ el ∈ subs, el.type = "elasticBeamColumn"
                ∧ el.section_id = some (e.section_id.getD 0)
                ∧ el.transform = some (e.transform.getD "Linear"))
      (m.elements.filter (fun e => e.type == "elasticBeamColumn"))
      (_discretize_elements m R).2.1 := by
  unfold _discretize_elements
  rw [if_neg (by omega)]
  dsimp only
  refine ⟨?_, ?_, ?_, ?_, ?_, ?_, ?_, ?_⟩
  · rw [List.length_append, discFold_newNodes]
    simp
  · exact List.take_left _ _
  · rw [discFold_newElems_len]
    simp
  · rw [(discFold_dmap m.ndf R m.elements _).1]
    simp
  · intro p hp
    rcases (discFold_dmap m.ndf R m.elements _).2 p hp with h | ⟨hc, hs, he⟩
    · simp at h
    · exact ⟨by omega, hs, he⟩
  · rw [discFold_filter]
    simp
  · intro el hel
    rcases discFold_mem m.ndf R m.elements _ el hel with h | h | h
    · simp at h
    · exact Or.inl h
    · exact Or.inr h
  · obtain ⟨dnew, hd, hf⟩ := discFold_pairing m.ndf R m.elements _
    rw [hd]
    exact hf

/-- C2 witness: the cardinality invariant instantiated at ratio 2 on a
concrete one-beam model. -/
theorem C2_witness :
    (2 ≤ 2)
    ∧ ((_discretize_elements c1Model 2).1.nodes.length
        = c1Model.nodes.length + (2 - 1) * bcCount c1Model.elements) :=
  ⟨by omega, (C2_discretizer_cardinality c1Model 2 (by omega)).1⟩
theorem mapIdx_append_length {α : Type} (n : Nat) :
    ∀ (l : List (List α)) (g : Nat → α), (∀ s ∈ l, s.length = n) →
    ∀ s ∈ l.mapIdx (fun i t => t ++ [g i]), s.length = n + 1 := by
  intro l
  induction l with
  | nil => intro g _ s hs; simp at hs
  | cons a t ih =>
    intro g h s hs
    rw [List.mapIdx_cons, List.mem_cons] at hs
    rcases hs with hs | hs
    · subst hs
      rw [List.length_append, h a (by simp), List.length_singleton]
    · exact ih (fun i => g (i + 1)) (fun x hx => h x (List.mem_cons_of_mem _ hx)) s hs

theorem thRecord_spec (o : Oracle) (dt : ℚ) (st : THState) (hinv : THInv st) :
    THInv (thRecord o dt st)
    ∧ (thRecord o dt st).time.length = st.time.length + 1
    ∧ (thRecord o dt st).k = st.k := by
  obtain ⟨hn, he, hb⟩ := hinv
  have htime : (thRecord o dt st).time.length = st.time.length + 1 := by
    simp [thRecord]
  refine ⟨⟨?_, ?_, ?_⟩, htime, rfl⟩
  · intro p hp
    simp only [thRecord, List.mem_map] at hp
    obtain ⟨q, hq, hpq⟩ := hp
    subst hpq
    intro s hs
    rw [htime]
    exact mapIdx_append_length st.time.length q.2
      (fun dof => o.nodeDisp st.k q.1 (dof + 1)) (hn q hq) s hs
  · intro p hp
    simp only [thRecord, List.mem_map] at hp
    obtain ⟨q, hq, hpq⟩ := hp
    subst hpq
    intro s hs
    rw [htime]
    simp only [List.mem_append] at hs
    rcases hs with hs | hs
    · exact mapIdx_append_length st.time.length q.2 _ (he q hq) s hs
    · rw [List.mem_map] at hs
      obtain ⟨j, -, hj⟩ := hs
      subst hj
      simp [thRecord]
  · intro p hp
    simp only [thRecord, List.mem_map] at hp
    obtain ⟨q, hq, hpq⟩ := hp
    obtain ⟨h1, h2, h3, h4, h5, h6⟩ := hb q hq
    subst hpq
    rw [htime]
    cases o.eleBasicDisp st.k (10000 + q.1) with
    | none => simp [h1, h2, h3, h4, h5, h6]
    | some dv =>
      cases o.eleBasicForce st.k (10000 + q.1) with
      | none => simp [h1, h2, h3, h4, h5, h6]
      | some fv => simp [h1, h2, h3, h4, h5, h6]

theorem thLoop_spec (o : Oracle) (hb many : Bool) (dt : ℚ) :
    ∀ (n : Nat) (st : THState), THInv st →
    THInv (thLoop o hb many dt n st)
    ∧ (thLoop o hb many dt n st).time.length
        = st.time.length + thConvergedSteps o hb many st.k n := by
  intro n
  induction n with
  | zero => intro st hinv; exact ⟨hinv, by simp [thLoop, thConvergedSteps]⟩
  | succ n ih =>
    intro st hinv
    by_cases hok : (thStepAttempt o st.k hb many).2.1
    · have hinv2 : THInv { st with
          k := (thStepAttempt o st.k hb many).1
          trace := st.trace ++ (thStepAttempt o st.k hb many).2.2 } := hinv
      obtain ⟨hrec, hreclen, hreck⟩ := thRecord_spec o dt _ hinv2
      obtain ⟨hinv3, hlen3⟩ := ih _ hrec
      constructor
      · simpa [thLoop, hok] using hinv3
      · rw [show thLoop o hb many dt (n + 1) st
            = thLoop o hb many dt n (thRecord o dt { st with
                k := (thStepAttempt o st.k hb many).1
                trace := st.trace ++ (thStepAttempt o st.k hb many).2.2 }) by
          simp [thLoop, hok]]
        rw [hlen3, hreclen, hreck]
        rw [show thConvergedSteps o hb many st.k (n + 1)
            = thConvergedSteps o hb many (thStepAttempt o st.k hb many).1 n + 1 by
          simp [thConvergedSteps, hok]]
        dsimp only
        omega
    · constructor
      · simpa [thLoop, hok] using hinv
      · rw [show thLoop o hb many dt (n + 1) st
            = { st with
                k := (thStepAttempt o st.k hb many).1
                trace := st.trace ++ (thStepAttempt o st.k hb many).2.2 } by
          simp [thLoop, hok]]
        rw [show thConvergedSteps o hb many st.k (n + 1) = 0 by
          simp [thConvergedSteps, hok]]
        simp

theorem thConvergedSteps_le (o : Oracle) (hb many : Bool) :
    ∀ (n k : Nat), thConvergedSteps o hb many k n ≤ n := by
  intro n
  induction n with
  | zero => intro k; simp [thConvergedSteps]
  | succ n ih =>
    intro k
    by_cases hok : (thStepAttempt o k hb many).2.1
    · rw [show thConvergedSteps o hb many k (n + 1)
          = thConvergedSteps o hb many (thStepAttempt o k hb many).1 n + 1 by
        simp [thConvergedSteps, hok]]
      exact Nat.succ_le_succ (ih _)
    · rw [show thConvergedSteps o hb many k (n + 1) = 0 by
        simp [thConvergedSteps, hok]]
      omega

theorem thInitState_inv (m : Model) (ndf : Nat) (tr : List Op) (k : Nat) :
    THInv (thInitState m ndf tr k) := by
  refine ⟨?_, ?_, ?_⟩
  · intro p hp
    simp only [thInitState, List.mem_map] at hp
    obtain ⟨q, -, hpq⟩ := hp
    subst hpq
    intro s hs
    rw [List.eq_of_mem_replicate hs]
    simp [thInitState]
  · intro p hp
    simp only [thInitState, List.mem_map] at hp
    obtain ⟨q, -, hpq⟩ := hp
    subst hpq
    intro s hs
    simp at hs
  · intro p hp
    simp only [thInitState, List.mem_map] at hp
    obtain ⟨q, -, hpq⟩ := hp
    subst hpq
    simp [thInitState]
theorem thRun_spec (o : Oracle) (m : Model) (dt : ℚ) (ns : Nat) (tr : List Op)
    (k0 : Nat) :
    THInv (thRun o m dt ns tr k0)
    ∧ (thRun o m dt ns tr k0).time.length
        = thConvergedSteps o (!m.bearings.isEmpty) (4 < m.bearings.length) k0 ns := by
  obtain ⟨h1, h2⟩ := thLoop_spec o (!m.bearings.isEmpty) (4 < m.bearings.length) dt ns
      (thInitState m m.ndf tr k0) (thInitState_inv m m.ndf tr k0)
  exact ⟨h1, by rw [thRun, h2]; simp [thInitState]⟩

theorem poRecord_spec (o : Oracle) (m : Model) (ndf : Nat) (fixed : List Node)
    (ctrl cdof ns sn : Nat) (st : POState) :
    (poRecord o m ndf fixed ctrl cdof ns sn st).capacity_curve.length
      = st.capacity_curve.length + 1
    ∧ (poRecord o m ndf fixed ctrl cdof ns sn st).k = st.k := by
  constructor <;> simp [poRecord]

theorem poLoop_spec (o : Oracle) (m : Model) (ndf : Nat) (fixed : List Node)
    (ctrl cdof ns : Nat) : ∀ (r sn : Nat) (st : POState),
    (poLoop o m ndf fixed ctrl cdof ns sn r st).capacity_curve.length
      = st.capacity_curve.length + poConvergedSteps o st.k r := by
  intro r
  induction r with
  | zero => intro sn st; simp [poLoop, poConvergedSteps]
  | succ r ih =>
    intro sn st
    by_cases hok : (poStepAttempt o st.k).2.1
    · rw [show poLoop o m ndf fixed ctrl cdof ns sn (r + 1) st
          = poLoop o m ndf fixed ctrl cdof ns (sn + 1) r
              (poRecord o m ndf fixed ctrl cdof ns sn { st with
                k := (poStepAttempt o st.k).1
                trace := st.trace ++ (poStepAttempt o st.k).2.2 }) by
        simp [poLoop, hok]]
      rw [ih]
      obtain ⟨hc, hk⟩ := poRecord_spec o m ndf fixed ctrl cdof ns sn
        { st with
          k := (poStepAttempt o st.k).1
          trace := st.trace ++ (poStepAttempt o st.k).2.2 }
      rw [hc, hk]
      rw [show poConvergedSteps o st.k (r + 1)
          = poConvergedSteps o (poStepAttempt o st.k).1 r + 1 by
        simp [poConvergedSteps, hok]]
      dsimp only
      omega
    · rw [show poLoop o m ndf fixed ctrl cdof ns sn (r + 1) st
          = { st with
              k := (poStepAttempt o st.k).1
              trace := st.trace ++ (poStepAttempt o st.k).2.2 } by
        simp [poLoop, hok]]
      rw [show poConvergedSteps o st.k (r + 1) = 0 by
        simp [poConvergedSteps, hok]]
      simp

theorem poConvergedSteps_le (o : Oracle) : ∀ (r k : Nat),
    poConvergedSteps o k r ≤ r := by
  intro r
  induction r with
  | zero => intro k; simp [poConvergedSteps]
  | succ r ih =>
    intro k
    by_cases hok : (poStepAttempt o k).2.1
    · rw [show poConvergedSteps o k (r + 1)
          = poConvergedSteps o (poStepAttempt o k).1 r + 1 by
        simp [poConvergedSteps, hok]]
      exact Nat.succ_le_succ (ih _)
    · rw [show poConvergedSteps o k (r + 1) = 0 by simp [poConvergedSteps, hok]]
      omega

/-- C5: for every oracle (i.e. every pattern of convergence failures), a
time-history run returns normally (`Except.ok`) with the time vector and all
node/element/bearing series truncated consistently at the number of outer
steps that converged under the retry ladder and two-level sub-stepping; a
pushover run with at least one free node returns normally with the capacity
curve truncated at the number of converged displacement increments.  No
exception escapes either stepping loop. -/
theorem C5_partial_results (o : Oracle) (m : Model) (gm : List ℚ) (dt : ℚ)
    (ns : Nat) (dir : Int) (td : ℚ) (pns : Nat) (cn : Option Nat) (cd : Nat)
    (lp : String)
    (hfree : freeNodesOf (_discretize_elements m 5).1.nodes ≠ []) :
    (∃ r : THResult, (run_time_history o m gm dt ns dir).1 = Except.ok r
      ∧ r.time.length = thConvergedSteps o
          (!(_discretize_elements m 5).1.bearings.isEmpty)
          (4 < (_discretize_elements m 5).1.bearings.length)
          (if !(_discretize_elements m 5).1.bearings.isEmpty
           then (_run_gravity_preload o (_discretize_elements m 5).1 0 50).1 else 0) ns
      ∧ r.time.length ≤ ns
      ∧ (∀ p ∈ r.node_displacements, ∀ s ∈ p.2, s.length = r.time.length)
      ∧ (∀ p ∈ r.element_forces, ∀ s ∈ p.2, s.length = r.time.length)
      ∧ (∀ p ∈ r.bearing_responses,
          p.2.displacement_x.length = r.time.length
          ∧ p.2.displacement_y.length = r.time.length
          ∧ p.2.displacement_z.length = r.time.length
          ∧ p.2.force_x.length = r.time.length
          ∧ p.2.force_y.length = r.time.length
          ∧ p.2.axial_force.length = r.time.length))
    ∧ (∃ r : PushoverResult,
        (run_pushover_analysis o m td pns cn cd lp).1 = Except.ok r
        ∧ r.capacity_curve.length = poConvergedSteps o
            (if !(_discretize_elements m 5).1.bearings.isEmpty
             then (_run_gravity_preload o (_discretize_elements m 5).1 0 50).1 else 1) pns
        ∧ r.capacity_curve.length ≤ pns) := by
  constructor
  · unfold run_time_history thBody
    dsimp only
    refine ⟨_, rfl, ?_, ?_, ?_, ?_, ?_⟩
    · rw [(thRun_spec o _ dt ns _ _).2]
      congr 1
      rw [apply_ite (fun p : Nat × Int × List Op => p.1)]
    · rw [(thRun_spec o _ dt ns _ _).2]
      exact thConvergedSteps_le o _ _ ns _
    · exact (thRun_spec o _ dt ns _ _).1.1
    · exact (thRun_spec o _ dt ns _ _).1.2.1
    · exact (thRun_spec o _ dt ns _ _).1.2.2
  · unfold run_pushover_analysis poBody
    dsimp only
    split
    · rename_i heq
      exact absurd heq hfree
    · refine ⟨_, rfl, ?_, ?_⟩
      · rw [poLoop_spec]
        dsimp only
        rw [apply_ite (fun p : Nat × Int × List Op => p.1)]
        simp
      · rw [poLoop_spec]
        dsimp only
        simp only [List.length_nil, Nat.zero_add]
        exact poConvergedSteps_le o pns _

/-- C5 witness: a concrete model whose discretized form has free nodes,
and the resulting normal return of a concrete time-history run. -/
theorem C5_witness :
    (freeNodesOf (_discretize_elements c1Model 5).1.nodes ≠ [])
    ∧ (∃ r : THResult,
        (run_time_history oracle0 c1Model [] 0 1 1).1 = Except.ok r) :=
  ⟨by decide,
   Exists.elim (C5_partial_results oracle0 c1Model [] 0 1 1 0 1 none 1 "linear"
       (by decide)).1 (fun r hr => ⟨r, hr.1⟩)⟩
